import Mathlib

/-!
# Tiny2D sprite animation: embedding of `Src/Tiny2D_Sprite.cpp`

The animation state machine of `Tiny2D_Sprite.cpp` (`Sprite_PlayAnimation`,
`Sprite_Update`, `Sprite_FireAnimationEvents`, the selection and the frame
computation of `Sprite_Draw`) and the readiness check `SpriteResource_CheckCreated`
are embedded as pure functions.

Conventions of the embedding:

* `float` is the field `ℚ` of exact rationals (no rounding, no NaN, no infinity);
  `x / 0 = 0` as everywhere in Mathlib, where C would produce an infinity or NaN.
  A second embedding of `Sprite_PlayAnimation` and `Sprite_Update` (`FloatVal`) keeps
  overflow, the infinities and NaN; it is used where a statement fails on these values.
* A `SpriteResource::Animation*` is an address `AnimPtr`; the resource carries the
  content stored at each address (`SpriteResource.mem`).  Pointer comparison is
  comparison of addresses.  The resource is never written by the functions below.
* The calls made to the event callback are returned as a list, in call order.
* `Assert` records a violation in a flag and execution goes on with the statement
  that follows it in the source.
* The textures belong to another module: their load states and sizes are an argument
  (`Textures`) of `SpriteResource_CheckCreated`.
-/

namespace Tiny2D

/-! ## Data model -/

/-- Playback modes, `Sprite::AnimationMode_*`. -/
inductive AnimationMode where
  | Loop
  | Once
  | OnceAndFreeze
  | OnceWhenDone
  | LoopWhenDone
  deriving DecidableEq, Repr

/-- Load states, `ResourceState_*`. -/
inductive ResourceState where
  | CreationInProgress
  | Created
  | FailedToCreate
  deriving DecidableEq, Repr

/-- Record `SpriteResource::Event`: a named marker on the timeline of an animation. -/
structure Event where
  time : ℚ
  name : String
  value : String
  deriving DecidableEq, Repr

/-- Record `SpriteResource::Animation`; `frames` holds the texture handle of each frame. -/
structure Animation where
  name : String
  frameTime : ℚ
  totalTime : ℚ
  frames : List Nat
  events : List Event
  deriving DecidableEq, Repr

/-- Address of a `SpriteResource::Animation` (a node of `SpriteResource::animations`). -/
abbrev AnimPtr := Nat

/-- Record `SpriteResource`: `animations` is the `std::map` from name to node, `mem` the
content of each node, `defaultAnimation` the pointer of the same name. -/
structure SpriteResource where
  state : ResourceState
  animations : List (String × AnimPtr)
  mem : AnimPtr → Animation
  defaultAnimation : AnimPtr
  width : Int
  height : Int

/-- Record `SpriteObj::AnimationInstance`. -/
structure AnimationInstance where
  animation : AnimPtr
  mode : AnimationMode
  time : ℚ
  weight : ℚ
  weightChangeSpeed : ℚ
  deriving DecidableEq, Repr

/-- Record `SpriteObj`; `callback` tells whether an event callback is set. -/
structure SpriteObj where
  resource : SpriteResource
  animationInstances : List AnimationInstance
  callback : Bool

/-- One call of the event callback: `(it->name, it->value)`. -/
abbrev EventCall := String × String

/-! ## Arithmetic of `<math.h>` on exact rationals -/

/-- Rounding toward zero. -/
def truncQ (q : ℚ) : ℤ := if 0 ≤ q then ⌊q⌋ else ⌈q⌉

/-- C `fmod`: `x - n * y` with `n` the quotient `x / y` rounded toward zero. -/
def fmod (x y : ℚ) : ℚ := x - (truncQ (x / y) : ℚ) * y

/-- Modelled from the spec: `clamp` of `Tiny2D.h`, which is not part of the sources at hand;
the spec writes `firstIndex = clamp(floor(p), 0, frameCount-1)`, the value limited to the
range from `lo` to `hi`. -/
def clamp (x lo hi : ℤ) : ℤ := if x < lo then lo else if hi < x then hi else x

/-! ## `Sprite_SetEventCallback`, `Sprite_FireAnimationEvents` -/

/-- `Sprite_SetEventCallback` with a non-null (`true`) or null (`false`) callback. -/
def Sprite_SetEventCallback (sprite : SpriteObj) (callback : Bool) : SpriteObj :=
  { sprite with callback := callback }

/-- `Sprite_FireAnimationEvents`: the callback calls, in the order of `animation->events`. -/
def Sprite_FireAnimationEvents (sprite : SpriteObj) (animation : Animation)
    (oldTime newTime : ℚ) (_dt : ℚ) : List EventCall :=
  if !sprite.callback then []
  else (animation.events.filter (fun ev => decide (oldTime ≤ ev.time ∧ ev.time < newTime))).map
    (fun ev => (ev.name, ev.value))

/-! ## `Sprite_PlayAnimation` -/

/-- Whether a mode is `OnceWhenDone` or `LoopWhenDone`. -/
def isWhenDone (mode : AnimationMode) : Bool :=
  mode == AnimationMode.OnceWhenDone || mode == AnimationMode.LoopWhenDone

/-- The lookup at the head of `Sprite_PlayAnimation`: the empty name is the default
animation, any other name is searched in `animations` (`none`: not found). -/
def findAnimation (resource : SpriteResource) (name : String) : Option AnimPtr :=
  if name = "" then some resource.defaultAnimation
  else resource.animations.lookup name

/-- `Sprite_PlayAnimation(sprite, name, mode, transitionTime)`. -/
def Sprite_PlayAnimation (sprite : SpriteObj) (name : String) (mode : AnimationMode)
    (transitionTime : ℚ) : SpriteObj :=
  match findAnimation sprite.resource name with
  | none => sprite
  | some animation =>
    if sprite.animationInstances.any (fun it => it.animation == animation) then sprite
    else
      let weightChangeSpeed : ℚ := if transitionTime = 0 then 0 else 1 / transitionTime
      let others : List AnimationInstance :=
        if mode ≠ AnimationMode.OnceWhenDone ∧ mode ≠ AnimationMode.LoopWhenDone then
          if transitionTime = 0 then []
          else sprite.animationInstances.map
            (fun it => { it with weightChangeSpeed := -weightChangeSpeed })
        else sprite.animationInstances
      { sprite with
        animationInstances := others ++
          [{ animation := animation
             mode := mode
             time := 0
             weight := if transitionTime = 0 then 1 else 0
             weightChangeSpeed := weightChangeSpeed }] }

/-- Modelled from the spec: the call `Sprite_PlayAnimation(sprite)` relies on the default
arguments declared in `Tiny2D.h`, which is not part of the sources at hand; the spec gives
`play(instance, clipName="", mode=Loop, transitionTime=0)`. -/
def Sprite_PlayAnimation_default (sprite : SpriteObj) : SpriteObj :=
  Sprite_PlayAnimation sprite "" AnimationMode.Loop 0

/-- The tail of `Sprite_Create` and of `Sprite_Clone`: a new `SpriteObj` on the resource,
no callback, on which the default animation is started. -/
def Sprite_Create (resource : SpriteResource) : SpriteObj :=
  Sprite_PlayAnimation_default
    { resource := resource, animationInstances := [], callback := false }

/-! ## `Sprite_Update` -/

/-- What one iteration of the loop of `Sprite_Update` leaves behind: the final value of
`*it`, whether it was pushed to `sprite->animationInstances`, whether the iteration set
`doneAnim`, whether it set `instWhenDone = &(*it)`, the callback calls it made and
whether it hit the `Assert` of the `default` case. -/
structure InstanceStep where
  inst : AnimationInstance
  pushed : Bool
  done : Bool
  held : Bool
  fired : List EventCall
  assertFailed : Bool

/-- The end of the loop body, from `it->weight += it->weightChangeSpeed * dt` to the
`push_back`: the final value of `*it` and whether it was pushed. -/
def Sprite_Update_weight (it : AnimationInstance) (dt : ℚ) : AnimationInstance × Bool :=
  let it1 := { it with weight := it.weight + it.weightChangeSpeed * dt }
  if it1.weight ≤ 0 then (it1, false)
  else if it1.weight ≥ 1 then ({ it1 with weight := 1, weightChangeSpeed := 0 }, true)
  else (it1, true)

/-- One iteration of the loop of `Sprite_Update`. -/
def Sprite_Update_body (sprite : SpriteObj) (dt : ℚ) (it : AnimationInstance) :
    InstanceStep :=
  let prevInstTime := it.time
  let held := isWhenDone it.mode
  let it1 := if held then it else { it with time := it.time + dt }
  let animation := sprite.resource.mem it1.animation
  if it1.time ≥ animation.totalTime then
    match it1.mode with
    | AnimationMode.Loop =>
      let it2 := { it1 with time := fmod it1.time animation.totalTime }
      let fired := Sprite_FireAnimationEvents sprite animation prevInstTime it2.time dt
      let w := Sprite_Update_weight it2 dt
      { inst := w.1, pushed := w.2, done := true, held := held, fired := fired,
        assertFailed := false }
    | AnimationMode.Once =>
      let fired :=
        Sprite_FireAnimationEvents sprite animation prevInstTime animation.totalTime dt
      { inst := it1, pushed := false, done := true, held := held, fired := fired,
        assertFailed := false }
    | AnimationMode.OnceAndFreeze =>
      let it2 := { it1 with time := animation.totalTime }
      let fired := Sprite_FireAnimationEvents sprite animation prevInstTime it2.time dt
      let w := Sprite_Update_weight it2 dt
      { inst := w.1, pushed := w.2, done := false, held := held, fired := fired,
        assertFailed := false }
    | _ =>
      let w := Sprite_Update_weight it1 dt
      { inst := w.1, pushed := w.2, done := false, held := held, fired := [],
        assertFailed := true }
  else
    let fired := Sprite_FireAnimationEvents sprite animation prevInstTime it1.time dt
    let w := Sprite_Update_weight it1 dt
    { inst := w.1, pushed := w.2, done := false, held := held, fired := fired,
      assertFailed := false }

/-- The iterations of the loop of `Sprite_Update` over the copy of the instance list. -/
def Sprite_Update_steps (sprite : SpriteObj) (dt : ℚ) : List InstanceStep :=
  sprite.animationInstances.map (Sprite_Update_body sprite dt)

/-- The list `sprite->animationInstances` when the loop ends: the pushed instances. -/
def Sprite_Update_pushed (sprite : SpriteObj) (dt : ℚ) : List AnimationInstance :=
  ((Sprite_Update_steps sprite dt).filter (fun st => st.pushed)).map (fun st => st.inst)

/-- The flag `doneAnim` when the loop ends. -/
def Sprite_Update_doneAnim (sprite : SpriteObj) (dt : ℚ) : Bool :=
  (Sprite_Update_steps sprite dt).any (fun st => st.done)

/-- The instance `*instWhenDone` when the loop ends (`none`: the pointer is null): the last
element of the copy in a when-done mode, as the loop left it. -/
def Sprite_Update_instWhenDone (sprite : SpriteObj) (dt : ℚ) : Option AnimationInstance :=
  (((Sprite_Update_steps sprite dt).filter (fun st => st.held)).map
    (fun st => st.inst)).getLast?

/-- The condition of the block "Kick off when done instance". -/
def Sprite_Update_kicks (sprite : SpriteObj) (dt : ℚ) : Bool :=
  (Sprite_Update_doneAnim sprite dt || (Sprite_Update_pushed sprite dt).length == 1) &&
    (Sprite_Update_instWhenDone sprite dt).isSome

/-- The instance list after the block "Kick off when done instance". -/
def Sprite_Update_kicked (sprite : SpriteObj) (dt : ℚ) : List AnimationInstance :=
  match Sprite_Update_instWhenDone sprite dt with
  | some instWhenDone =>
    if Sprite_Update_doneAnim sprite dt || (Sprite_Update_pushed sprite dt).length == 1 then
      [{ instWhenDone with
         mode := if instWhenDone.mode = AnimationMode.OnceWhenDone then AnimationMode.Once
                 else AnimationMode.Loop
         weight := 1 }]
    else Sprite_Update_pushed sprite dt
  | none => Sprite_Update_pushed sprite dt

/-- `Sprite_Update(sprite, dt)`: the sprite it leaves. -/
def Sprite_Update (sprite : SpriteObj) (dt : ℚ) : SpriteObj :=
  let sprite1 := { sprite with animationInstances := Sprite_Update_kicked sprite dt }
  if sprite1.animationInstances.length = 0 then Sprite_PlayAnimation_default sprite1
  else sprite1

/-- The callback calls made during `Sprite_Update(sprite, dt)`, in call order. -/
def Sprite_Update_fired (sprite : SpriteObj) (dt : ℚ) : List EventCall :=
  ((Sprite_Update_steps sprite dt).map (fun st => st.fired)).flatten

/-- Whether `Sprite_Update(sprite, dt)` hits "Unsupported sprite animation mode". -/
def Sprite_Update_assertFailed (sprite : SpriteObj) (dt : ℚ) : Bool :=
  (Sprite_Update_steps sprite dt).any (fun st => st.assertFailed)

/-! ## `Sprite_Draw` -/

/-- One iteration of the selection loop of `Sprite_Draw`: `it` replaces the selection when
it is in no when-done mode and either nothing is selected yet or its weight is greater. -/
def Sprite_Draw_select_step (animationInstance : Option AnimationInstance)
    (it : AnimationInstance) : Option AnimationInstance :=
  if it.mode ≠ AnimationMode.OnceWhenDone ∧ it.mode ≠ AnimationMode.LoopWhenDone then
    match animationInstance with
    | none => some it
    | some sel => if it.weight > sel.weight then some it else some sel
  else animationInstance

/-- The selection loop of `Sprite_Draw` (`none`: `animationInstance` is still null, the
`Assert` that follows fails). -/
def Sprite_Draw_select (instances : List AnimationInstance) : Option AnimationInstance :=
  instances.foldl Sprite_Draw_select_step none

/-- Frame choice of `Sprite_Draw`: index of `texture0`, index of `texture1` when there is
one, and `lerp`. -/
structure FrameSample where
  firstFrameIndex : ℤ
  nextFrameIndex : Option ℤ
  lerp : ℚ
  deriving DecidableEq, Repr

/-- The block "Determine textures to draw" of `Sprite_Draw` for an instance at `time` of
`animation`.  The indices are integers of ℤ; `(firstFrameIndex + 1) % frames.size()` is
computed on them (on the clamped, non-negative index the conversion to `size_t` changes
nothing). -/
def Sprite_Draw_frames (animation : Animation) (time : ℚ) : FrameSample :=
  if animation.frames.length = 1 then
    { firstFrameIndex := 0, nextFrameIndex := none, lerp := 0 }
  else
    let numFramesF : ℚ := (animation.frames.length : ℚ)
    let frameIndexF : ℚ := numFramesF * (time / animation.totalTime)
    let firstFrameIndexF : ℤ := ⌊frameIndexF⌋
    let firstFrameIndex : ℤ := clamp firstFrameIndexF 0 ((animation.frames.length : ℤ) - 1)
    let nextFrameIndex : ℤ := (firstFrameIndex + 1) % (animation.frames.length : ℤ)
    { firstFrameIndex := firstFrameIndex
      nextFrameIndex := some nextFrameIndex
      lerp := frameIndexF - (firstFrameIndexF : ℚ) }

/-! ## Sequences of calls, and the vocabulary of the statements -/

/-- The instance that `Sprite_PlayAnimation(sprite)` appends to an empty list: the default
animation in mode `Loop`, time 0, weight 1, no weight change. -/
def defaultInstance (resource : SpriteResource) : AnimationInstance :=
  { animation := resource.defaultAnimation, mode := AnimationMode.Loop, time := 0,
    weight := 1, weightChangeSpeed := 0 }

/-- Successive calls of `Sprite_Update`, one per time step of the list. -/
def advanceAll (sprite : SpriteObj) (dts : List ℚ) : SpriteObj :=
  dts.foldl Sprite_Update sprite

/-- The test `it->time >= it->animation->totalTime` of the loop body of `Sprite_Update`, on
the time the iteration has reached (a when-done instance is not advanced). -/
def completes (resource : SpriteResource) (dt : ℚ) (it : AnimationInstance) : Bool :=
  decide ((if isWhenDone it.mode then it.time else it.time + dt) ≥
    (resource.mem it.animation).totalTime)

/-- A call made on a sprite after its creation. -/
inductive Call where
  | play (name : String) (mode : AnimationMode) (transitionTime : ℚ)
  | update (dt : ℚ)
  | setEventCallback (callback : Bool)

/-- The sprite after one call. -/
def Call.run (sprite : SpriteObj) : Call → SpriteObj
  | Call.play name mode transitionTime => Sprite_PlayAnimation sprite name mode transitionTime
  | Call.update dt => Sprite_Update sprite dt
  | Call.setEventCallback callback => Sprite_SetEventCallback sprite callback

/-- The sprite after a sequence of calls, first call first. -/
def runCalls (sprite : SpriteObj) (calls : List Call) : SpriteObj :=
  calls.foldl Call.run sprite

/-- The animations that the instances of a sprite point to, in list order. -/
def playedAnimations (sprite : SpriteObj) : List AnimPtr :=
  sprite.animationInstances.map (fun it => it.animation)

/-! ## A concrete resource for the worked examples -/

/-- A four-frame animation of 10 seconds without events. -/
def idleClip : Animation :=
  { name := "idle", frameTime := 5/2, totalTime := 10, frames := [0, 1, 2, 3], events := [] }

/-- A four-frame animation of half a second without events. -/
def jumpClip : Animation :=
  { name := "jump", frameTime := 1/8, totalTime := 1/2, frames := [4, 5, 6, 7], events := [] }

/-- A four-frame animation of one second with an event near each end of its timeline. -/
def walkClip : Animation :=
  { name := "walk", frameTime := 1/4, totalTime := 1, frames := [8, 9, 10, 11],
    events := [⟨1/20, "start", ""⟩, ⟨19/20, "end", ""⟩] }

/-- A resource with four animations; `idle` (address 0) is the default, `jump` is at
address 1, `run` and `walk` (addresses 2 and 3) both hold the content of `walkClip`. -/
def demoResource : SpriteResource :=
  { state := ResourceState.Created
    animations := [("idle", 0), ("jump", 1), ("run", 2), ("walk", 3)]
    mem := fun p => if p = 0 then idleClip else if p = 1 then jumpClip else walkClip
    defaultAnimation := 0
    width := 32
    height := 32 }

/-- A sprite with a callback whose only instance loops `walk` and stands at 0.9 s. -/
def wrapSprite : SpriteObj :=
  { resource := demoResource
    animationInstances := [⟨3, AnimationMode.Loop, 9/10, 1, 0⟩]
    callback := true }

/-- A sprite whose only instance plays `jump` once and stands at 0.25 s. -/
def jumpSprite : SpriteObj :=
  { resource := demoResource
    animationInstances := [⟨1, AnimationMode.Once, 1/4, 1, 0⟩]
    callback := false }

/-- A sprite whose only instance loops `idle` from its start. -/
def idleSprite : SpriteObj :=
  { resource := demoResource
    animationInstances := [⟨0, AnimationMode.Loop, 0, 1, 0⟩]
    callback := false }

/-- Calls after which only when-done instances are left in the list: `jump` is faded in
over one second and completes after half of it, `run` and `walk` are queued, then `idle`
finishes fading out. -/
def stuckCalls : List Call :=
  [Call.play "jump" AnimationMode.Once 1, Call.update (1/2),
   Call.play "run" AnimationMode.OnceWhenDone 0, Call.play "walk" AnimationMode.LoopWhenDone 0,
   Call.update (1/2)]

/-! ## `SpriteResource_CheckCreated` -/

/-- What `SpriteResource_CheckCreated` reads from the textures, which live outside the sprite
resource: the load state behind each handle (`Texture_Get(...)->state`) and the size of each
texture (`GetWidth()`, `GetHeight()`). -/
structure Textures where
  state : Nat → ResourceState
  width : Nat → Int
  height : Nat → Int

/-- The frame textures in the order in which the two nested loops of
`SpriteResource_CheckCreated` visit them: the animations in the order of the `std::map`
(the order of the list `animations`), the frames of each in their order. -/
def frameTextures (resource : SpriteResource) : List Nat :=
  (resource.animations.map (fun entry => (resource.mem entry.2).frames)).flatten

/-- How the two nested loops of `SpriteResource_CheckCreated` end: on a texture that is
still in creation, on a texture that failed, or after the last texture. -/
inductive ScanEnd where
  | inProgress
  | failed
  | finished
  deriving DecidableEq, Repr

/-- The two nested loops of `SpriteResource_CheckCreated` over the frame textures. -/
def SpriteResource_CheckCreated_scan (textures : Textures) : List Nat → ScanEnd
  | [] => ScanEnd.finished
  | texture :: rest =>
    if textures.state texture = ResourceState.CreationInProgress then ScanEnd.inProgress
    else if textures.state texture = ResourceState.FailedToCreate then ScanEnd.failed
    else SpriteResource_CheckCreated_scan textures rest

/-- What a call of `SpriteResource_CheckCreated` leaves: the value returned, the resource,
and whether `Assert(resource->width && resource->height)` failed. -/
structure CheckResult where
  result : Bool
  resource : SpriteResource
  assertFailed : Bool

/-- `SpriteResource_CheckCreated(resource)`; `none` when the call reads `frames[0]` of a
default animation without frames, which C++ leaves undefined. -/
def SpriteResource_CheckCreated (textures : Textures) (resource : SpriteResource) :
    Option CheckResult :=
  if resource.state ≠ ResourceState.CreationInProgress then
    some { result := resource.state == ResourceState.Created, resource := resource,
           assertFailed := false }
  else
    match SpriteResource_CheckCreated_scan textures (frameTextures resource) with
    | ScanEnd.inProgress =>
      some { result := false, resource := resource, assertFailed := false }
    | ScanEnd.failed =>
      some { result := false
             resource := { resource with state := ResourceState.FailedToCreate }
             assertFailed := false }
    | ScanEnd.finished =>
      match (resource.mem resource.defaultAnimation).frames with
      | [] => none
      | texture :: _ =>
        some { result := true
               resource := { resource with
                             state := ResourceState.Created
                             width := textures.width texture
                             height := textures.height texture }
               assertFailed :=
                 !(decide (textures.width texture ≠ 0) && decide (textures.height texture ≠ 0)) }

/-- Successive calls of `SpriteResource_CheckCreated`, one per snapshot of the textures: the
resource after the last call and the values returned, first call first. -/
def checkRepeatedly (resource : SpriteResource) :
    List Textures → Option (SpriteResource × List Bool)
  | [] => some (resource, [])
  | textures :: rest =>
    match SpriteResource_CheckCreated textures resource with
    | none => none
    | some first =>
      match checkRepeatedly first.resource rest with
      | none => none
      | some later => some (later.1, first.result :: later.2)

/-! ## Further vocabulary of the statements -/

/-- Whether none of the successive calls of `Sprite_Update`, one per time step of the list,
promotes a when-done instance. -/
def neverKicks (sprite : SpriteObj) : List ℚ → Bool
  | [] => true
  | dt :: rest => !Sprite_Update_kicks sprite dt && neverKicks (Sprite_Update sprite dt) rest

/-- The instance that the block "Kick off when done instance" makes of `*instWhenDone`. -/
def kickedInstance (instWhenDone : AnimationInstance) : AnimationInstance :=
  { instWhenDone with
    mode := if instWhenDone.mode = AnimationMode.OnceWhenDone then AnimationMode.Once
            else AnimationMode.Loop
    weight := 1 }

/-- The window of events that the spec gives a non-held instance in one update: from the
old time up to the new time, and not beyond the total time. -/
def eventWindow (animation : Animation) (oldTime dt : ℚ) : List EventCall :=
  (animation.events.filter (fun ev =>
      decide (oldTime ≤ ev.time ∧ ev.time < min (oldTime + dt) animation.totalTime))).map
    (fun ev => (ev.name, ev.value))

/-! ## Further concrete data for the worked examples -/

/-- The resource `demoResource` while it is still in creation. -/
def loadingResource : SpriteResource :=
  { demoResource with state := ResourceState.CreationInProgress }

/-- Textures of which the first visited (handle 0) has failed and the second (handle 1) is
still in creation; all others are created, 32 by 32. -/
def failedFirstTextures : Textures :=
  { state := fun texture =>
      if texture = 0 then ResourceState.FailedToCreate
      else if texture = 1 then ResourceState.CreationInProgress
      else ResourceState.Created
    width := fun _ => 32
    height := fun _ => 32 }

/-- Textures of which the second visited (handle 1) is still in creation and the third
(handle 2) has failed; all others are created, 32 by 32. -/
def loadingFirstTextures : Textures :=
  { state := fun texture =>
      if texture = 1 then ResourceState.CreationInProgress
      else if texture = 2 then ResourceState.FailedToCreate
      else ResourceState.Created
    width := fun _ => 32
    height := fun _ => 32 }

/-- A sprite that loops `idle` from its start, with `jump` queued behind it. -/
def queuedSprite : SpriteObj :=
  { resource := demoResource
    animationInstances :=
      [⟨0, AnimationMode.Loop, 0, 1, 0⟩, ⟨1, AnimationMode.OnceWhenDone, 0, 1, 0⟩]
    callback := false }

/-- A sprite with a callback that plays `walk` once and stands at 0.9 s. -/
def onceSprite : SpriteObj :=
  { resource := demoResource
    animationInstances := [⟨3, AnimationMode.Once, 9/10, 1, 0⟩]
    callback := true }

/-- A sprite that plays `walk` in mode `OnceAndFreeze` and stands at 0.9 s. -/
def freezeSprite : SpriteObj :=
  { resource := demoResource
    animationInstances := [⟨3, AnimationMode.OnceAndFreeze, 9/10, 1, 0⟩]
    callback := false }

/-- A `float`: a finite value, an infinity or NaN. -/
inductive FloatVal where
  | finite (q : ℚ)
  | posInf
  | negInf
  | nan
  deriving DecidableEq, Repr

/-- The magnitude from which a finite result rounds to an infinity in single precision:
`FLT_MAX` plus half a unit in its last place, `2^128 - 2^103`. -/
def floatOverflow : ℚ := 2 ^ 128 - 2 ^ 103

/-- The float for an exact result: an infinity when the result overflows. -/
def FloatVal.ofRat (q : ℚ) : FloatVal :=
  if floatOverflow ≤ q then FloatVal.posInf
  else if q ≤ -floatOverflow then FloatVal.negInf
  else FloatVal.finite q

/-- Float `-x`. -/
def FloatVal.neg : FloatVal → FloatVal
  | FloatVal.finite q => FloatVal.finite (-q)
  | FloatVal.posInf => FloatVal.negInf
  | FloatVal.negInf => FloatVal.posInf
  | FloatVal.nan => FloatVal.nan

/-- Float `x + y`: NaN for a NaN operand and for infinities of opposite signs. -/
def FloatVal.add : FloatVal → FloatVal → FloatVal
  | FloatVal.nan, _ => FloatVal.nan
  | _, FloatVal.nan => FloatVal.nan
  | FloatVal.posInf, FloatVal.negInf => FloatVal.nan
  | FloatVal.negInf, FloatVal.posInf => FloatVal.nan
  | FloatVal.posInf, _ => FloatVal.posInf
  | _, FloatVal.posInf => FloatVal.posInf
  | FloatVal.negInf, _ => FloatVal.negInf
  | _, FloatVal.negInf => FloatVal.negInf
  | FloatVal.finite a, FloatVal.finite b => FloatVal.ofRat (a + b)

/-- The product of an infinity (`positive` tells which) and a finite value: NaN for 0. -/
def FloatVal.mulInf (positive : Bool) (b : ℚ) : FloatVal :=
  if b = 0 then FloatVal.nan
  else if decide (0 < b) = positive then FloatVal.posInf
  else FloatVal.negInf

/-- Float `x * y`: NaN for a NaN operand and for an infinity times 0. -/
def FloatVal.mul : FloatVal → FloatVal → FloatVal
  | FloatVal.nan, _ => FloatVal.nan
  | _, FloatVal.nan => FloatVal.nan
  | FloatVal.finite a, FloatVal.finite b => FloatVal.ofRat (a * b)
  | FloatVal.posInf, FloatVal.finite b => FloatVal.mulInf true b
  | FloatVal.negInf, FloatVal.finite b => FloatVal.mulInf false b
  | FloatVal.finite a, FloatVal.posInf => FloatVal.mulInf true a
  | FloatVal.finite a, FloatVal.negInf => FloatVal.mulInf false a
  | FloatVal.posInf, FloatVal.posInf => FloatVal.posInf
  | FloatVal.negInf, FloatVal.negInf => FloatVal.posInf
  | FloatVal.posInf, FloatVal.negInf => FloatVal.negInf
  | FloatVal.negInf, FloatVal.posInf => FloatVal.negInf

/-- Float `1.0f / x`.  The source divides only after the test `x == 0.0f`; for 0 the
positive infinity is returned here. -/
def FloatVal.recip : FloatVal → FloatVal
  | FloatVal.finite q => if q = 0 then FloatVal.posInf else FloatVal.ofRat (1 / q)
  | FloatVal.posInf => FloatVal.finite 0
  | FloatVal.negInf => FloatVal.finite 0
  | FloatVal.nan => FloatVal.nan

/-- Float `x <= y`: false when an operand is NaN. -/
def FloatVal.le : FloatVal → FloatVal → Bool
  | FloatVal.nan, _ => false
  | _, FloatVal.nan => false
  | FloatVal.finite a, FloatVal.finite b => decide (a ≤ b)
  | FloatVal.negInf, _ => true
  | _, FloatVal.posInf => true
  | FloatVal.posInf, _ => false
  | FloatVal.finite _, FloatVal.negInf => false

/-- Float `x == y`: false when an operand is NaN. -/
def FloatVal.eq : FloatVal → FloatVal → Bool
  | FloatVal.nan, _ => false
  | _, FloatVal.nan => false
  | x, y => decide (x = y)

/-- C `fmod` on floats: NaN for a NaN operand, for an infinite `x` and for `y = 0`; `x` for
a finite `x` and an infinite `y`. -/
def FloatVal.fmod : FloatVal → FloatVal → FloatVal
  | FloatVal.nan, _ => FloatVal.nan
  | _, FloatVal.nan => FloatVal.nan
  | FloatVal.posInf, _ => FloatVal.nan
  | FloatVal.negInf, _ => FloatVal.nan
  | FloatVal.finite a, FloatVal.posInf => FloatVal.finite a
  | FloatVal.finite a, FloatVal.negInf => FloatVal.finite a
  | FloatVal.finite a, FloatVal.finite b =>
    if b = 0 then FloatVal.nan else FloatVal.finite (Tiny2D.fmod a b)

/-- Record `SpriteObj::AnimationInstance` with float fields. -/
structure FloatInstance where
  animation : AnimPtr
  mode : AnimationMode
  time : FloatVal
  weight : FloatVal
  weightChangeSpeed : FloatVal
  deriving DecidableEq, Repr

/-- Record `SpriteObj` with float instances; the callback is left out. -/
structure FloatSprite where
  resource : SpriteResource
  animationInstances : List FloatInstance

/-- `Sprite_PlayAnimation(sprite, name, mode, transitionTime)` on floats. -/
def Sprite_PlayAnimation_float (sprite : FloatSprite) (name : String) (mode : AnimationMode)
    (transitionTime : FloatVal) : FloatSprite :=
  match findAnimation sprite.resource name with
  | none => sprite
  | some animation =>
    if sprite.animationInstances.any (fun it => it.animation == animation) then sprite
    else
      let weightChangeSpeed : FloatVal :=
        if FloatVal.eq transitionTime (FloatVal.finite 0) then FloatVal.finite 0
        else FloatVal.recip transitionTime
      let others : List FloatInstance :=
        if mode ≠ AnimationMode.OnceWhenDone ∧ mode ≠ AnimationMode.LoopWhenDone then
          if FloatVal.eq transitionTime (FloatVal.finite 0) then []
          else sprite.animationInstances.map
            (fun it => { it with weightChangeSpeed := FloatVal.neg weightChangeSpeed })
        else sprite.animationInstances
      { sprite with
        animationInstances := others ++
          [{ animation := animation
             mode := mode
             time := FloatVal.finite 0
             weight := if FloatVal.eq transitionTime (FloatVal.finite 0) then FloatVal.finite 1
                       else FloatVal.finite 0
             weightChangeSpeed := weightChangeSpeed }] }

/-- What one iteration of the loop of `Sprite_Update` leaves behind, on floats: the final
value of `*it`, whether it was pushed, whether it set `doneAnim`, whether it set
`instWhenDone`. -/
structure FloatStep where
  inst : FloatInstance
  pushed : Bool
  done : Bool
  held : Bool

/-- The end of the loop body on floats, from `it->weight += it->weightChangeSpeed * dt` to
the `push_back`. -/
def Sprite_Update_weight_float (it : FloatInstance) (dt : FloatVal) : FloatInstance × Bool :=
  let it1 := { it with weight := FloatVal.add it.weight (FloatVal.mul it.weightChangeSpeed dt) }
  if FloatVal.le it1.weight (FloatVal.finite 0) then (it1, false)
  else if FloatVal.le (FloatVal.finite 1) it1.weight then
    ({ it1 with weight := FloatVal.finite 1, weightChangeSpeed := FloatVal.finite 0 }, true)
  else (it1, true)

/-- One iteration of the loop of `Sprite_Update` on floats. -/
def Sprite_Update_body_float (sprite : FloatSprite) (dt : FloatVal) (it : FloatInstance) :
    FloatStep :=
  let held := isWhenDone it.mode
  let it1 := if held then it else { it with time := FloatVal.add it.time dt }
  let totalTime := FloatVal.finite (sprite.resource.mem it1.animation).totalTime
  if FloatVal.le totalTime it1.time then
    match it1.mode with
    | AnimationMode.Loop =>
      let w := Sprite_Update_weight_float
        { it1 with time := FloatVal.fmod it1.time totalTime } dt
      { inst := w.1, pushed := w.2, done := true, held := held }
    | AnimationMode.Once => { inst := it1, pushed := false, done := true, held := held }
    | AnimationMode.OnceAndFreeze =>
      let w := Sprite_Update_weight_float { it1 with time := totalTime } dt
      { inst := w.1, pushed := w.2, done := false, held := held }
    | _ =>
      let w := Sprite_Update_weight_float it1 dt
      { inst := w.1, pushed := w.2, done := false, held := held }
  else
    let w := Sprite_Update_weight_float it1 dt
    { inst := w.1, pushed := w.2, done := false, held := held }

/-- `Sprite_Update(sprite, dt)` on floats: the sprite it leaves. -/
def Sprite_Update_float (sprite : FloatSprite) (dt : FloatVal) : FloatSprite :=
  let steps := sprite.animationInstances.map (Sprite_Update_body_float sprite dt)
  let pushed := (steps.filter (fun st => st.pushed)).map (fun st => st.inst)
  let doneAnim := steps.any (fun st => st.done)
  let instWhenDone := ((steps.filter (fun st => st.held)).map (fun st => st.inst)).getLast?
  let kicked : List FloatInstance :=
    match instWhenDone with
    | some w =>
      if doneAnim || pushed.length == 1 then
        [{ w with
           mode := if w.mode = AnimationMode.OnceWhenDone then AnimationMode.Once
                   else AnimationMode.Loop
           weight := FloatVal.finite 1 }]
      else pushed
    | none => pushed
  let sprite1 : FloatSprite := { sprite with animationInstances := kicked }
  if sprite1.animationInstances.length = 0 then
    Sprite_PlayAnimation_float sprite1 "" AnimationMode.Loop (FloatVal.finite 0)
  else sprite1

/-- A call made on a sprite after its creation, with float arguments. -/
inductive FloatCall where
  | play (name : String) (mode : AnimationMode) (transitionTime : FloatVal)
  | update (dt : FloatVal)

/-- The sprite after one call, on floats. -/
def FloatCall.run (sprite : FloatSprite) : FloatCall → FloatSprite
  | FloatCall.play name mode transitionTime =>
    Sprite_PlayAnimation_float sprite name mode transitionTime
  | FloatCall.update dt => Sprite_Update_float sprite dt

/-- A sprite whose `idle` is fading out at weight 1/4, with `jump` queued behind it. -/
def fadingQueuedSprite : SpriteObj :=
  { resource := demoResource
    animationInstances :=
      [⟨0, AnimationMode.Loop, 0, 1/4, -1⟩, ⟨1, AnimationMode.OnceWhenDone, 0, 1, 0⟩]
    callback := false }

/-! ## General lemmas -/

/-- On `0 ≤ x`, `0 < y` the model of `fmod` is the remainder `x - ⌊x / y⌋ * y`. -/
theorem fmod_eq_floor (x y : ℚ) (hx : 0 ≤ x) (hy : 0 < y) :
    fmod x y = x - (⌊x / y⌋ : ℚ) * y := by
  have : 0 ≤ x / y := div_nonneg hx (le_of_lt hy)
  simp [fmod, truncQ, this]

/-- For `0 ≤ x`, `0 < y` the result of `fmod` is not negative. -/
theorem fmod_nonneg (x y : ℚ) (hx : 0 ≤ x) (hy : 0 < y) : 0 ≤ fmod x y := by
  rw [fmod_eq_floor x y hx hy]
  have h := Int.floor_le (x / y)
  have : (⌊x / y⌋ : ℚ) * y ≤ x := by
    calc (⌊x / y⌋ : ℚ) * y ≤ x / y * y := mul_le_mul_of_nonneg_right h (le_of_lt hy)
      _ = x := div_mul_cancel₀ x (ne_of_gt hy)
  linarith

/-- For `0 ≤ x`, `0 < y` the result of `fmod` is below `y`. -/
theorem fmod_lt (x y : ℚ) (hx : 0 ≤ x) (hy : 0 < y) : fmod x y < y := by
  rw [fmod_eq_floor x y hx hy]
  have h := Int.lt_floor_add_one (x / y)
  have : x < ((⌊x / y⌋ : ℚ) + 1) * y := by
    calc x = x / y * y := (div_mul_cancel₀ x (ne_of_gt hy)).symm
      _ < ((⌊x / y⌋ : ℚ) + 1) * y := mul_lt_mul_of_pos_right h hy
  linarith

/-- One period is taken off a value that lies in `[y, 2y)`. -/
theorem fmod_one_period (x y : ℚ) (hy : 0 < y) (h1 : y ≤ x) (h2 : x < 2 * y) :
    fmod x y = x - y := by
  have hx : 0 ≤ x := by linarith
  rw [fmod_eq_floor x y hx hy]
  have : ⌊x / y⌋ = 1 := by
    rw [Int.floor_eq_iff]
    constructor
    · rw [le_div_iff₀ hy]; simpa using h1
    · rw [div_lt_iff₀ hy]; push_cast; linarith
  rw [this]; simp

/-- `clamp` returns a value that lies within the bounds. -/
theorem clamp_of_mem (x lo hi : ℤ) (h1 : lo ≤ x) (h2 : x ≤ hi) : clamp x lo hi = x := by
  simp [clamp, not_lt.mpr h1, not_lt.mpr h2]

/-- On an empty list `Sprite_PlayAnimation(sprite)` starts the default animation. -/
theorem playDefault_nil (sprite : SpriteObj) (h : sprite.animationInstances = []) :
    (Sprite_PlayAnimation_default sprite).animationInstances =
      [defaultInstance sprite.resource] := by
  simp [Sprite_PlayAnimation_default, Sprite_PlayAnimation, findAnimation, h, defaultInstance]

/-- A new sprite plays the default animation only. -/
theorem Sprite_Create_instances (resource : SpriteResource) :
    (Sprite_Create resource).animationInstances = [defaultInstance resource] := by
  unfold Sprite_Create
  rw [playDefault_nil _ rfl]

/-- The list after `Sprite_Update`: the list after the kick-off block, or the default
instance when that list is empty. -/
theorem Sprite_Update_instances (sprite : SpriteObj) (dt : ℚ) :
    (Sprite_Update sprite dt).animationInstances =
      if Sprite_Update_kicked sprite dt = [] then [defaultInstance sprite.resource]
      else Sprite_Update_kicked sprite dt := by
  unfold Sprite_Update
  by_cases h : Sprite_Update_kicked sprite dt = []
  · simp [h, playDefault_nil]
  · simp [h]

/-- When the kick-off condition is false the kick-off block leaves the pushed instances. -/
theorem Sprite_Update_kicked_of_not_kicks (sprite : SpriteObj) (dt : ℚ)
    (h : Sprite_Update_kicks sprite dt = false) :
    Sprite_Update_kicked sprite dt = Sprite_Update_pushed sprite dt := by
  unfold Sprite_Update_kicked
  unfold Sprite_Update_kicks at h
  cases hw : Sprite_Update_instWhenDone sprite dt with
  | none => rfl
  | some w =>
    simp only [hw, Option.isSome_some, Bool.and_true] at h
    simp [h]

/-- The kick-off block leaves the pushed instances or the single promoted instance. -/
theorem Sprite_Update_kicked_cases (sprite : SpriteObj) (dt : ℚ) :
    Sprite_Update_kicked sprite dt = Sprite_Update_pushed sprite dt ∨
      ∃ w, Sprite_Update_instWhenDone sprite dt = some w ∧
        Sprite_Update_kicked sprite dt =
          [{ w with
             mode := if w.mode = AnimationMode.OnceWhenDone then AnimationMode.Once
                     else AnimationMode.Loop
             weight := 1 }] := by
  unfold Sprite_Update_kicked
  cases hw : Sprite_Update_instWhenDone sprite dt with
  | none => exact Or.inl rfl
  | some w =>
    by_cases hc : (Sprite_Update_doneAnim sprite dt ||
        (Sprite_Update_pushed sprite dt).length == 1) = true
    · exact Or.inr ⟨w, rfl, by simp only [hc, if_true]⟩
    · exact Or.inl (by simp only [hc, Bool.false_eq_true, if_false])

/-- The result of `Sprite_PlayAnimation` for a name found in the resource that no instance
of the list plays yet. -/
theorem Sprite_PlayAnimation_fresh (sprite : SpriteObj) (name : String) (c : AnimPtr)
    (mode : AnimationMode) (T : ℚ)
    (hfind : findAnimation sprite.resource name = some c)
    (hnew : ∀ it ∈ sprite.animationInstances, it.animation ≠ c) :
    Sprite_PlayAnimation sprite name mode T =
      { sprite with animationInstances :=
          (if isWhenDone mode = false then
            if T = 0 then []
            else sprite.animationInstances.map (fun it =>
              { it with weightChangeSpeed := -(if T = 0 then 0 else 1 / T) })
          else sprite.animationInstances) ++
          [⟨c, mode, 0, if T = 0 then 1 else 0, if T = 0 then 0 else 1 / T⟩] } := by
  have hany : sprite.animationInstances.any (fun it => it.animation == c) = false := by
    rw [List.any_eq_false]
    intro it hit
    simpa using hnew it hit
  cases mode <;> simp [Sprite_PlayAnimation, hfind, hany, isWhenDone]

/-- An instance of weight 1 without weight change is pushed as it is. -/
theorem Sprite_Update_weight_steady (a : AnimPtr) (m : AnimationMode) (t dt : ℚ) :
    Sprite_Update_weight ⟨a, m, t, 1, 0⟩ dt = (⟨a, m, t, 1, 0⟩, true) := by
  simp [Sprite_Update_weight]

/-- An instance whose new weight is not positive is not pushed. -/
theorem Sprite_Update_weight_drop (it : AnimationInstance) (dt : ℚ)
    (h : it.weight + it.weightChangeSpeed * dt ≤ 0) :
    Sprite_Update_weight it dt =
      ({ it with weight := it.weight + it.weightChangeSpeed * dt }, false) := by
  simp only [Sprite_Update_weight, h, if_true]

/-- An instance whose new weight reaches 1 is pushed with weight 1 and no weight change. -/
theorem Sprite_Update_weight_full (it : AnimationInstance) (dt : ℚ)
    (h0 : 0 < it.weight + it.weightChangeSpeed * dt)
    (h1 : 1 ≤ it.weight + it.weightChangeSpeed * dt) :
    Sprite_Update_weight it dt = ({ it with weight := 1, weightChangeSpeed := 0 }, true) := by
  simp only [Sprite_Update_weight, not_le.mpr h0, ge_iff_le, h1, if_true, if_false]

/-- An instance whose new weight lies strictly between 0 and 1 is pushed with it. -/
theorem Sprite_Update_weight_part (it : AnimationInstance) (dt : ℚ)
    (h0 : 0 < it.weight + it.weightChangeSpeed * dt)
    (h1 : it.weight + it.weightChangeSpeed * dt < 1) :
    Sprite_Update_weight it dt =
      ({ it with weight := it.weight + it.weightChangeSpeed * dt }, true) := by
  simp only [Sprite_Update_weight, not_le.mpr h0, ge_iff_le, not_le.mpr h1, if_false]

/-- The weight step changes neither animation, mode nor time. -/
theorem Sprite_Update_weight_fields (it : AnimationInstance) (dt : ℚ) :
    (Sprite_Update_weight it dt).1.animation = it.animation ∧
      (Sprite_Update_weight it dt).1.mode = it.mode ∧
      (Sprite_Update_weight it dt).1.time = it.time := by
  unfold Sprite_Update_weight
  by_cases h0 : it.weight + it.weightChangeSpeed * dt ≤ 0
  · simp [h0]
  · by_cases h1 : it.weight + it.weightChangeSpeed * dt ≥ 1
    · simp [h0, h1]
    · simp [h0, h1]

/-- An iteration never changes the animation an instance points to. -/
theorem Sprite_Update_body_animation (sprite : SpriteObj) (dt : ℚ) (it : AnimationInstance) :
    (Sprite_Update_body sprite dt it).inst.animation = it.animation := by
  obtain ⟨a, m, t, w, v⟩ := it
  unfold Sprite_Update_body
  cases m <;> simp only [isWhenDone] <;> split_ifs <;>
    simp [(Sprite_Update_weight_fields _ dt).1]

/-- An iteration that does not enter the completion branch only advances the time
and applies the weight step. -/
theorem body_of_not_completes (sprite : SpriteObj) (dt : ℚ) (it : AnimationInstance)
    (h : completes sprite.resource dt it = false) :
    (Sprite_Update_body sprite dt it).inst =
        (Sprite_Update_weight
          { it with time := if isWhenDone it.mode then it.time else it.time + dt } dt).1 ∧
      (Sprite_Update_body sprite dt it).pushed =
        (Sprite_Update_weight
          { it with time := if isWhenDone it.mode then it.time else it.time + dt } dt).2 ∧
      (Sprite_Update_body sprite dt it).done = false ∧
      (Sprite_Update_body sprite dt it).assertFailed = false := by
  unfold completes at h
  cases hm : isWhenDone it.mode
  · simp only [hm, Bool.false_eq_true, if_false, decide_eq_false_iff_not, ge_iff_le] at h
    simp [Sprite_Update_body, hm, h]
  · simp only [hm, if_true, decide_eq_false_iff_not, ge_iff_le] at h
    simp [Sprite_Update_body, hm, h]

/-- The pushed instances, written as one pass over the copy. -/
theorem pushed_filterMap (sprite : SpriteObj) (dt : ℚ) (l : List AnimationInstance) :
    ((l.map (Sprite_Update_body sprite dt)).filter (fun st => st.pushed)).map
        (fun st => st.inst) =
      l.filterMap (fun it =>
        if (Sprite_Update_body sprite dt it).pushed then
          some (Sprite_Update_body sprite dt it).inst
        else none) := by
  induction l with
  | nil => rfl
  | cons it rest ih =>
    cases hp : (Sprite_Update_body sprite dt it).pushed
    · simp [List.filter_cons, List.filterMap_cons, hp, ih]
    · simp [List.filter_cons, List.filterMap_cons, hp, ih]

/-- Two functions that agree on the elements of a list give the same `filterMap`. -/
theorem filterMap_ext_mem {α β : Type} (f g : α → Option β) (l : List α)
    (h : ∀ x ∈ l, f x = g x) : l.filterMap f = l.filterMap g := by
  induction l with
  | nil => rfl
  | cons x rest ih =>
    have hx := h x (List.mem_cons_self _ _)
    have hr := ih (fun y hy => h y (List.mem_cons_of_mem _ hy))
    simp [List.filterMap_cons, hx, hr]

/-- The iteration on an `OnceWhenDone` instance of weight 1 without weight change. -/
theorem body_held_steady (sprite : SpriteObj) (dt : ℚ) (b : AnimPtr) (t : ℚ) :
    let st := Sprite_Update_body sprite dt ⟨b, AnimationMode.OnceWhenDone, t, 1, 0⟩
    st.inst = ⟨b, AnimationMode.OnceWhenDone, t, 1, 0⟩ ∧ st.pushed = true ∧
      st.done = false ∧ st.held = true := by
  by_cases h : (sprite.resource.mem b).totalTime ≤ t
  · simp [Sprite_Update_body, isWhenDone, h, Sprite_Update_weight_steady]
  · simp [Sprite_Update_body, isWhenDone, h, Sprite_Update_weight_steady]

/-- The iteration on a steady `Loop` instance that stays below the total time. -/
theorem body_loop_running (sprite : SpriteObj) (dt : ℚ) (a : AnimPtr) (t : ℚ)
    (h : t + dt < (sprite.resource.mem a).totalTime) :
    let st := Sprite_Update_body sprite dt ⟨a, AnimationMode.Loop, t, 1, 0⟩
    st.inst = ⟨a, AnimationMode.Loop, t + dt, 1, 0⟩ ∧ st.pushed = true ∧
      st.done = false ∧ st.held = false := by
  simp [Sprite_Update_body, isWhenDone, not_le.mpr h, Sprite_Update_weight_steady]

/-- The iteration on a steady `Loop` instance that reaches the total time. -/
theorem body_loop_wraps (sprite : SpriteObj) (dt : ℚ) (a : AnimPtr) (t : ℚ)
    (h : (sprite.resource.mem a).totalTime ≤ t + dt) :
    let st := Sprite_Update_body sprite dt ⟨a, AnimationMode.Loop, t, 1, 0⟩
    st.inst = ⟨a, AnimationMode.Loop, fmod (t + dt) (sprite.resource.mem a).totalTime, 1, 0⟩ ∧
      st.pushed = true ∧ st.done = true ∧ st.held = false := by
  simp [Sprite_Update_body, isWhenDone, h, Sprite_Update_weight_steady]

/-- `Sprite_Update` on a running `Loop` instance followed by a queued `OnceWhenDone` one. -/
theorem update_pair_running (r : SpriteResource) (cb : Bool) (a b : AnimPtr) (t dt : ℚ)
    (h : t + dt < (r.mem a).totalTime) :
    Sprite_Update ⟨r, [⟨a, AnimationMode.Loop, t, 1, 0⟩,
        ⟨b, AnimationMode.OnceWhenDone, 0, 1, 0⟩], cb⟩ dt =
      ⟨r, [⟨a, AnimationMode.Loop, t + dt, 1, 0⟩,
        ⟨b, AnimationMode.OnceWhenDone, 0, 1, 0⟩], cb⟩ := by
  have ha := body_loop_running ⟨r, [⟨a, AnimationMode.Loop, t, 1, 0⟩,
        ⟨b, AnimationMode.OnceWhenDone, 0, 1, 0⟩], cb⟩ dt a t h
  have hb := body_held_steady ⟨r, [⟨a, AnimationMode.Loop, t, 1, 0⟩,
        ⟨b, AnimationMode.OnceWhenDone, 0, 1, 0⟩], cb⟩ dt b 0
  simp only at ha hb
  obtain ⟨ha1, ha2, ha3, ha4⟩ := ha
  obtain ⟨hb1, hb2, hb3, hb4⟩ := hb
  simp [Sprite_Update, Sprite_Update_kicked, Sprite_Update_instWhenDone, Sprite_Update_doneAnim,
    Sprite_Update_pushed, Sprite_Update_steps, List.filter_cons, ha1, ha2, ha3, ha4, hb1, hb2, hb3, hb4]

/-- `Sprite_Update` promotes the queued instance when the `Loop` instance wraps. -/
theorem update_pair_wraps (r : SpriteResource) (cb : Bool) (a b : AnimPtr) (t dt : ℚ)
    (h : (r.mem a).totalTime ≤ t + dt) :
    Sprite_Update ⟨r, [⟨a, AnimationMode.Loop, t, 1, 0⟩,
        ⟨b, AnimationMode.OnceWhenDone, 0, 1, 0⟩], cb⟩ dt =
      ⟨r, [⟨b, AnimationMode.Once, 0, 1, 0⟩], cb⟩ := by
  have ha := body_loop_wraps ⟨r, [⟨a, AnimationMode.Loop, t, 1, 0⟩,
        ⟨b, AnimationMode.OnceWhenDone, 0, 1, 0⟩], cb⟩ dt a t h
  have hb := body_held_steady ⟨r, [⟨a, AnimationMode.Loop, t, 1, 0⟩,
        ⟨b, AnimationMode.OnceWhenDone, 0, 1, 0⟩], cb⟩ dt b 0
  simp only at ha hb
  obtain ⟨ha1, ha2, ha3, ha4⟩ := ha
  obtain ⟨hb1, hb2, hb3, hb4⟩ := hb
  simp [Sprite_Update, Sprite_Update_kicked, Sprite_Update_instWhenDone, Sprite_Update_doneAnim,
    Sprite_Update_pushed, Sprite_Update_steps, List.filter_cons, ha1, ha2, ha3, ha4, hb1, hb2, hb3, hb4]

/-- Any number of updates that keep the `Loop` instance below its total time. -/
theorem advanceAll_pair_running (r : SpriteResource) (cb : Bool) (a b : AnimPtr) (dts : List ℚ) :
    ∀ t : ℚ, (∀ d ∈ dts, 0 < d) → t + dts.sum < (r.mem a).totalTime →
    advanceAll ⟨r, [⟨a, AnimationMode.Loop, t, 1, 0⟩,
        ⟨b, AnimationMode.OnceWhenDone, 0, 1, 0⟩], cb⟩ dts =
      ⟨r, [⟨a, AnimationMode.Loop, t + dts.sum, 1, 0⟩,
        ⟨b, AnimationMode.OnceWhenDone, 0, 1, 0⟩], cb⟩ := by
  induction dts with
  | nil => intro t _ _; simp [advanceAll]
  | cons d rest ih =>
    intro t hpos hsum
    have hrest : ∀ x ∈ rest, 0 < x := fun x hx => hpos x (List.mem_cons_of_mem _ hx)
    have hnn : 0 ≤ rest.sum := List.sum_nonneg (fun x hx => le_of_lt (hrest x hx))
    rw [List.sum_cons] at hsum
    have hd : t + d < (r.mem a).totalTime := by linarith
    have := ih (t + d) hrest (by linarith)
    simp only [advanceAll, List.foldl_cons] at this ⊢
    rw [update_pair_running r cb a b t d hd, this, List.sum_cons]
    ring_nf

/-- A wrapping `Loop` instance calls `Sprite_FireAnimationEvents` with a window that ends
before it starts: nothing is delivered. -/
theorem body_loop_wrap_fires_nothing (sprite : SpriteObj) (dt : ℚ) (it : AnimationInstance)
    (hmode : it.mode = AnimationMode.Loop)
    (hdt : 0 < dt) (hlt : dt < (sprite.resource.mem it.animation).totalTime)
    (hold : it.time < (sprite.resource.mem it.animation).totalTime)
    (hwrap : (sprite.resource.mem it.animation).totalTime ≤ it.time + dt) :
    (Sprite_Update_body sprite dt it).fired = [] := by
  have hy : 0 < (sprite.resource.mem it.animation).totalTime := lt_trans hdt hlt
  have hf := fmod_one_period (it.time + dt) _ hy hwrap (by linarith)
  simp [Sprite_Update_body, hmode, isWhenDone, hwrap, hf, Sprite_FireAnimationEvents]
  intro _ ev _ h1
  linarith

/-- The animations of the pushed instances form a sublist of those of the copy. -/
theorem pushed_animations_sublist (sprite : SpriteObj) (dt : ℚ) (l : List AnimationInstance) :
    List.Sublist
      ((((l.map (Sprite_Update_body sprite dt)).filter (fun st => st.pushed)).map
        (fun st => st.inst)).map (fun it => it.animation))
      (l.map (fun it => it.animation)) := by
  induction l with
  | nil => simp
  | cons it rest ih =>
    cases hp : (Sprite_Update_body sprite dt it).pushed
    · simp only [List.map_cons, List.filter_cons, hp]
      exact List.Sublist.cons _ ih
    · simp only [List.map_cons, List.filter_cons, hp, if_true]
      rw [Sprite_Update_body_animation]
      exact List.Sublist.cons₂ _ ih

/-- The kick-off block keeps the animations of the list pairwise distinct. -/
theorem Sprite_Update_kicked_nodup (sprite : SpriteObj) (dt : ℚ)
    (h : (playedAnimations sprite).Nodup) :
    ((Sprite_Update_kicked sprite dt).map (fun it => it.animation)).Nodup := by
  rcases Sprite_Update_kicked_cases sprite dt with hk | ⟨w, -, hk⟩
  · rw [hk]
    exact List.Nodup.sublist (pushed_animations_sublist sprite dt sprite.animationInstances) h
  · rw [hk]
    simp

/-- `Sprite_Update` keeps the animations of the list pairwise distinct. -/
theorem Sprite_Update_nodup (sprite : SpriteObj) (dt : ℚ)
    (h : (playedAnimations sprite).Nodup) :
    (playedAnimations (Sprite_Update sprite dt)).Nodup := by
  unfold playedAnimations
  rw [Sprite_Update_instances]
  split_ifs
  · simp
  · exact Sprite_Update_kicked_nodup sprite dt h

/-- `Sprite_PlayAnimation` keeps the animations of the list pairwise distinct. -/
theorem Sprite_PlayAnimation_nodup (sprite : SpriteObj) (name : String)
    (mode : AnimationMode) (T : ℚ) (h : (playedAnimations sprite).Nodup) :
    (playedAnimations (Sprite_PlayAnimation sprite name mode T)).Nodup := by
  unfold playedAnimations at h ⊢
  unfold Sprite_PlayAnimation
  cases hfind : findAnimation sprite.resource name with
  | none => exact h
  | some c =>
    by_cases hany : sprite.animationInstances.any (fun it => it.animation == c) = true
    · simp only [hany, if_true]; exact h
    · have hc : c ∉ sprite.animationInstances.map (fun it => it.animation) := by
        intro hmem
        apply hany
        rw [List.mem_map] at hmem
        obtain ⟨it, hit, rfl⟩ := hmem
        exact List.any_eq_true.mpr ⟨it, hit, by simp⟩
      simp only [hany, Bool.false_eq_true, if_false, List.map_append, List.map_cons,
        List.map_nil]
      split_ifs
      · simp
      · rw [List.map_map]
        exact List.Nodup.append h (List.nodup_singleton c) (by simpa using hc)
      · exact List.Nodup.append h (List.nodup_singleton c) (by simpa using hc)

/-- Any sequence of calls keeps the animations of the list pairwise distinct. -/
theorem runCalls_nodup (calls : List Call) :
    ∀ sprite : SpriteObj, (playedAnimations sprite).Nodup →
      (playedAnimations (runCalls sprite calls)).Nodup := by
  induction calls with
  | nil => intro sprite h; exact h
  | cons call rest ih =>
    intro sprite h
    have hstep : (playedAnimations (Call.run sprite call)).Nodup := by
      cases call with
      | play name mode T => exact Sprite_PlayAnimation_nodup sprite name mode T h
      | update dt => exact Sprite_Update_nodup sprite dt h
      | setEventCallback cb => exact h
    exact ih _ hstep

/-- An iteration sets `instWhenDone` exactly for an instance in a when-done mode. -/
theorem Sprite_Update_body_held (sprite : SpriteObj) (dt : ℚ) (it : AnimationInstance) :
    (Sprite_Update_body sprite dt it).held = isWhenDone it.mode := by
  obtain ⟨a, m, t, w, v⟩ := it
  unfold Sprite_Update_body
  cases m <;> simp only [isWhenDone] <;> split_ifs <;> simp

/-- Without an instance in a when-done mode `instWhenDone` stays null. -/
theorem Sprite_Update_instWhenDone_none (sprite : SpriteObj) (dt : ℚ)
    (h : ∀ it ∈ sprite.animationInstances, isWhenDone it.mode = false) :
    Sprite_Update_instWhenDone sprite dt = none := by
  unfold Sprite_Update_instWhenDone Sprite_Update_steps
  have : (sprite.animationInstances.map (Sprite_Update_body sprite dt)).filter
      (fun st => st.held) = [] := by
    rw [List.filter_eq_nil_iff]
    intro st hst
    rw [List.mem_map] at hst
    obtain ⟨it, hit, rfl⟩ := hst
    rw [Sprite_Update_body_held, h it hit]
    simp
  rw [this]
  rfl

/-- Without an instance in a when-done mode nothing is promoted. -/
theorem Sprite_Update_kicks_of_no_held (sprite : SpriteObj) (dt : ℚ)
    (h : ∀ it ∈ sprite.animationInstances, isWhenDone it.mode = false) :
    Sprite_Update_kicks sprite dt = false := by
  unfold Sprite_Update_kicks
  rw [Sprite_Update_instWhenDone_none sprite dt h]
  simp

/-! ## The calls of `stuckCalls`, one by one -/

/-- The sprite that `Sprite_Create` returns on `demoResource`. -/
theorem stuck_create : Sprite_Create demoResource = idleSprite := by
  simp [Sprite_Create, Sprite_PlayAnimation_default, Sprite_PlayAnimation, findAnimation,
    demoResource, idleSprite]

/-- First call: `jump` is started with a transition of one second. -/
theorem stuck_play_jump :
    Sprite_PlayAnimation idleSprite "jump" AnimationMode.Once 1 =
      ⟨demoResource, [⟨0, AnimationMode.Loop, 0, 1, -1⟩, ⟨1, AnimationMode.Once, 0, 0, 1⟩],
        false⟩ := by
  simp [Sprite_PlayAnimation, findAnimation, demoResource, idleSprite, List.lookup]

/-- Second call: after half a second `jump` has completed and is dropped, `idle` is left
at weight 1/2 and still fading out. -/
theorem stuck_update_first :
    Sprite_Update ⟨demoResource,
        [⟨0, AnimationMode.Loop, 0, 1, -1⟩, ⟨1, AnimationMode.Once, 0, 0, 1⟩], false⟩ (1/2) =
      ⟨demoResource, [⟨0, AnimationMode.Loop, 1/2, 1/2, -1⟩], false⟩ := by
  simp [Sprite_Update, Sprite_Update_kicked, Sprite_Update_instWhenDone,
    Sprite_Update_doneAnim, Sprite_Update_pushed, Sprite_Update_steps, Sprite_Update_body,
    Sprite_Update_weight, isWhenDone, demoResource, idleClip, jumpClip, walkClip,
    Sprite_FireAnimationEvents]
  norm_num
  simp

/-- Third call: `run` is queued. -/
theorem stuck_play_run :
    Sprite_PlayAnimation ⟨demoResource, [⟨0, AnimationMode.Loop, 1/2, 1/2, -1⟩], false⟩ "run"
        AnimationMode.OnceWhenDone 0 =
      ⟨demoResource, [⟨0, AnimationMode.Loop, 1/2, 1/2, -1⟩,
        ⟨2, AnimationMode.OnceWhenDone, 0, 1, 0⟩], false⟩ := by
  simp [Sprite_PlayAnimation, findAnimation, demoResource, List.lookup]

/-- Fourth call: `walk` is queued as well. -/
theorem stuck_play_walk :
    Sprite_PlayAnimation ⟨demoResource, [⟨0, AnimationMode.Loop, 1/2, 1/2, -1⟩,
        ⟨2, AnimationMode.OnceWhenDone, 0, 1, 0⟩], false⟩ "walk"
        AnimationMode.LoopWhenDone 0 =
      ⟨demoResource, [⟨0, AnimationMode.Loop, 1/2, 1/2, -1⟩,
        ⟨2, AnimationMode.OnceWhenDone, 0, 1, 0⟩,
        ⟨3, AnimationMode.LoopWhenDone, 0, 1, 0⟩], false⟩ := by
  simp [Sprite_PlayAnimation, findAnimation, demoResource, List.lookup]

/-- Fifth call: `idle` reaches weight 0 and is dropped without completing; two instances
are pushed, so nothing is promoted. -/
theorem stuck_update_second :
    Sprite_Update ⟨demoResource, [⟨0, AnimationMode.Loop, 1/2, 1/2, -1⟩,
        ⟨2, AnimationMode.OnceWhenDone, 0, 1, 0⟩,
        ⟨3, AnimationMode.LoopWhenDone, 0, 1, 0⟩], false⟩ (1/2) =
      ⟨demoResource, [⟨2, AnimationMode.OnceWhenDone, 0, 1, 0⟩,
        ⟨3, AnimationMode.LoopWhenDone, 0, 1, 0⟩], false⟩ := by
  simp [Sprite_Update, Sprite_Update_kicked, Sprite_Update_instWhenDone,
    Sprite_Update_doneAnim, Sprite_Update_pushed, Sprite_Update_steps, Sprite_Update_body,
    Sprite_Update_weight, isWhenDone, demoResource, idleClip, jumpClip, walkClip,
    Sprite_FireAnimationEvents]
  norm_num
  simp

/-- The sprite after the calls of `stuckCalls`. -/
theorem stuck_result :
    runCalls (Sprite_Create demoResource) stuckCalls =
      ⟨demoResource, [⟨2, AnimationMode.OnceWhenDone, 0, 1, 0⟩,
        ⟨3, AnimationMode.LoopWhenDone, 0, 1, 0⟩], false⟩ := by
  simp only [runCalls, stuckCalls, List.foldl_cons, List.foldl_nil, Call.run]
  rw [stuck_create, stuck_play_jump, stuck_update_first, stuck_play_run, stuck_play_walk,
    stuck_update_second]

/-- Every animation of `demoResource` has a positive total time. -/
theorem demoResource_totalTime_pos (p : AnimPtr) : 0 < (demoResource.mem p).totalTime := by
  simp only [demoResource]
  split_ifs <;> norm_num [idleClip, jumpClip, walkClip]

/-- The instance of `jumpSprite` completes in an update of half a second and nothing is
pushed. -/
theorem jumpSprite_pushed : Sprite_Update_pushed jumpSprite (1/2) = [] := by
  simp [Sprite_Update_pushed, Sprite_Update_steps, Sprite_Update_body, jumpSprite,
    demoResource, jumpClip, isWhenDone]

/-- No instance of `jumpSprite` is queued, so nothing is promoted. -/
theorem jumpSprite_kicks : Sprite_Update_kicks jumpSprite (1/2) = false := by
  simp [Sprite_Update_kicks, Sprite_Update_instWhenDone, Sprite_Update_steps,
    Sprite_Update_body, jumpSprite, demoResource, jumpClip, isWhenDone]

/-- The model of `fmod` on the example of the specification. -/
theorem fmod_example : fmod (11/10) 1 = 1/10 := by
  norm_num [fmod, truncQ]

/-! ## C1: the instance list is never empty after `Sprite_Update` -/

/-- C1: for every sprite and every time step `dt`, the instance list is not empty after
`Sprite_Update`; and when the loop pushed no instance (`Sprite_Update_pushed = []`) and the
kick-off block promoted no when-done instance (`Sprite_Update_kicks = false`), the list is
exactly one instance of the default animation with mode `Loop`, time 0, weight 1 and
weight change 0. -/
theorem Sprite_Update_never_empty (sprite : SpriteObj) (dt : ℚ) :
    (Sprite_Update sprite dt).animationInstances ≠ [] ∧
    (Sprite_Update_pushed sprite dt = [] → Sprite_Update_kicks sprite dt = false →
      (Sprite_Update sprite dt).animationInstances =
        [{ animation := sprite.resource.defaultAnimation, mode := AnimationMode.Loop,
           time := 0, weight := 1, weightChangeSpeed := 0 }]) := by
  constructor
  · rw [Sprite_Update_instances]
    by_cases h : Sprite_Update_kicked sprite dt = []
    · simp [h]
    · simp [h]
  · intro hp hk
    rw [Sprite_Update_instances, Sprite_Update_kicked_of_not_kicks sprite dt hk, hp]
    simp [defaultInstance]

/-- C1 on `jumpSprite`: its only instance completes and is dropped, nothing is queued, and
the update leaves the default animation `idle` looping from 0 at weight 1. -/
theorem Sprite_Update_never_empty_witness :
    Sprite_Update_pushed jumpSprite (1/2) = [] ∧
      Sprite_Update_kicks jumpSprite (1/2) = false ∧
      (Sprite_Update jumpSprite (1/2)).animationInstances =
        [⟨0, AnimationMode.Loop, 0, 1, 0⟩] :=
  ⟨jumpSprite_pushed, jumpSprite_kicks,
    (Sprite_Update_never_empty jumpSprite (1/2)).2 jumpSprite_pushed jumpSprite_kicks⟩

/-! ## C2: promotion of an `OnceWhenDone` instance -/

/-- C2: on a sprite whose list is exactly `[A, Loop, time t, weight 1, no weight change]`,
after `Sprite_PlayAnimation(B, OnceWhenDone, 0)` with `B ≠ A` the list is `A` followed by
`B` (`OnceWhenDone`, time 0, weight 1); after any updates with positive time steps that keep
`A` below its total time the list is `A`, advanced by the time elapsed and still `Loop`,
followed by `B`, still `OnceWhenDone` at time 0; and the next update whose time step takes
`A` to its total time or beyond leaves exactly one instance, `B` in mode `Once` with
weight 1. -/
theorem onceWhenDone_promotion (r : SpriteResource) (cb : Bool) (a b : AnimPtr)
    (name : String) (t : ℚ) (dts : List ℚ) (dt : ℚ)
    (hname : findAnimation r name = some b) (hab : b ≠ a)
    (hpos : ∀ d ∈ dts, 0 < d)
    (hrun : t + dts.sum < (r.mem a).totalTime)
    (hdone : t + dts.sum + dt ≥ (r.mem a).totalTime) :
    (Sprite_PlayAnimation ⟨r, [⟨a, AnimationMode.Loop, t, 1, 0⟩], cb⟩ name
        AnimationMode.OnceWhenDone 0).animationInstances =
      [⟨a, AnimationMode.Loop, t, 1, 0⟩, ⟨b, AnimationMode.OnceWhenDone, 0, 1, 0⟩] ∧
    (advanceAll (Sprite_PlayAnimation ⟨r, [⟨a, AnimationMode.Loop, t, 1, 0⟩], cb⟩ name
        AnimationMode.OnceWhenDone 0) dts).animationInstances =
      [⟨a, AnimationMode.Loop, t + dts.sum, 1, 0⟩, ⟨b, AnimationMode.OnceWhenDone, 0, 1, 0⟩] ∧
    (Sprite_Update (advanceAll (Sprite_PlayAnimation ⟨r, [⟨a, AnimationMode.Loop, t, 1, 0⟩], cb⟩
        name AnimationMode.OnceWhenDone 0) dts) dt).animationInstances =
      [⟨b, AnimationMode.Once, 0, 1, 0⟩] := by
  have hplay : Sprite_PlayAnimation ⟨r, [⟨a, AnimationMode.Loop, t, 1, 0⟩], cb⟩ name
        AnimationMode.OnceWhenDone 0 =
      ⟨r, [⟨a, AnimationMode.Loop, t, 1, 0⟩, ⟨b, AnimationMode.OnceWhenDone, 0, 1, 0⟩], cb⟩ := by
    simp [Sprite_PlayAnimation, hname, Ne.symm hab]
  rw [hplay, advanceAll_pair_running r cb a b dts t hpos hrun,
    update_pair_wraps r cb a b (t + dts.sum) dt hdone]
  simp

/-- C2 on `demoResource`: `idle` loops, `jump` is queued, two updates of 1/4 s and 1/2 s
leave `idle` at 3/4 s followed by the queued `jump`, and an update of 10 s leaves `jump`
alone in mode `Once`. -/
theorem onceWhenDone_promotion_witness :
    (advanceAll (Sprite_PlayAnimation ⟨demoResource, [⟨0, AnimationMode.Loop, 0, 1, 0⟩], false⟩
        "jump" AnimationMode.OnceWhenDone 0) [1/4, 1/2]).animationInstances =
      [⟨0, AnimationMode.Loop, 0 + [(1/4 : ℚ), 1/2].sum, 1, 0⟩,
        ⟨1, AnimationMode.OnceWhenDone, 0, 1, 0⟩] ∧
    (Sprite_Update (advanceAll (Sprite_PlayAnimation
        ⟨demoResource, [⟨0, AnimationMode.Loop, 0, 1, 0⟩], false⟩
        "jump" AnimationMode.OnceWhenDone 0) [1/4, 1/2]) 10).animationInstances =
      [⟨1, AnimationMode.Once, 0, 1, 0⟩] :=
  (onceWhenDone_promotion demoResource false 0 1 "jump" 0 [1/4, 1/2] 10
    (by simp [findAnimation, demoResource, List.lookup]) (by decide)
    (by intro d hd; simp at hd; rcases hd with h | h <;> rw [h] <;> norm_num)
    (by norm_num [demoResource, idleClip]) (by norm_num [demoResource, idleClip])).2

/-! ## C3: events when a `Loop` instance wraps -/

/-- C3, evaluated on `wrapSprite` (a callback is set; `walk` lasts 1 s, has the event
`start` at 0.05 s and the event `end` at 0.95 s; the instance stands at 0.9 s) with
`dt = 0.2`: the instance wraps to 0.1 s, the event `end` lies in `[0.9, 1)` and the event
`start` lies in `[0, 0.1)`, both in the part of the timeline traversed in the tick, and
`Sprite_Update` delivers no event at all. -/
theorem loop_wrap_skips_events :
    (Sprite_Update wrapSprite (1/5)).animationInstances =
        [⟨3, AnimationMode.Loop, 1/10, 1, 0⟩] ∧
      Sprite_Update_fired wrapSprite (1/5) = [] ∧
      wrapSprite.callback = true ∧
      (∃ ev ∈ (wrapSprite.resource.mem 3).events,
        (9 : ℚ) / 10 ≤ ev.time ∧ ev.time < (wrapSprite.resource.mem 3).totalTime) ∧
      (∃ ev ∈ (wrapSprite.resource.mem 3).events, 0 ≤ ev.time ∧ ev.time < (1 : ℚ) / 10) := by
  refine ⟨?_, ?_, rfl,
    ⟨⟨19/20, "end", ""⟩, by simp [wrapSprite, demoResource, walkClip],
      by norm_num [wrapSprite, demoResource, walkClip]⟩,
    ⟨⟨1/20, "start", ""⟩, by simp [wrapSprite, demoResource, walkClip], by norm_num⟩⟩
  · simp [Sprite_Update, Sprite_Update_kicked, Sprite_Update_instWhenDone,
      Sprite_Update_doneAnim, Sprite_Update_pushed, Sprite_Update_steps, Sprite_Update_body,
      Sprite_Update_weight, isWhenDone, wrapSprite, demoResource, walkClip,
      Sprite_FireAnimationEvents, fmod, truncQ]
    norm_num
    simp
  · simp [Sprite_Update_fired, Sprite_Update_steps, Sprite_Update_body, Sprite_Update_weight,
      isWhenDone, wrapSprite, demoResource, walkClip, Sprite_FireAnimationEvents, fmod, truncQ]
    norm_num

/-! ## C4: playing an animation that is already played -/

/-- C4: if the name resolves to an animation that some instance of the list already points
to, `Sprite_PlayAnimation` returns the sprite unchanged, whatever the mode and the
transition time; and a second call with the same name, whatever its mode and transition
time, returns what the first call returned. -/
theorem Sprite_PlayAnimation_already_played (sprite : SpriteObj) (name : String)
    (mode mode2 : AnimationMode) (transitionTime transitionTime2 : ℚ) :
    (∀ animation, findAnimation sprite.resource name = some animation →
      (∃ it ∈ sprite.animationInstances, it.animation = animation) →
      Sprite_PlayAnimation sprite name mode transitionTime = sprite) ∧
    Sprite_PlayAnimation (Sprite_PlayAnimation sprite name mode transitionTime) name mode2
        transitionTime2 = Sprite_PlayAnimation sprite name mode transitionTime := by
  constructor
  · intro animation hfind hex
    have : sprite.animationInstances.any (fun it => it.animation == animation) = true := by
      simpa using hex
    simp [Sprite_PlayAnimation, hfind, this]
  · cases hfind : findAnimation sprite.resource name with
    | none => simp [Sprite_PlayAnimation, hfind]
    | some animation =>
      by_cases hany : sprite.animationInstances.any (fun it => it.animation == animation) = true
      · simp [Sprite_PlayAnimation, hfind, hany]
      · have hnew : ∀ it ∈ sprite.animationInstances, it.animation ≠ animation := by
          intro it hit heq
          exact hany (List.any_eq_true.mpr ⟨it, hit, by simp [heq]⟩)
        rw [Sprite_PlayAnimation_fresh sprite name animation mode transitionTime hfind hnew]
        simp [Sprite_PlayAnimation, hfind]

/-- C4 on `idleSprite`: `idle` is already played, and playing it again in mode `Once` with a
transition of one second changes nothing. -/
theorem Sprite_PlayAnimation_already_played_witness :
    findAnimation idleSprite.resource "idle" = some 0 ∧
      (∃ it ∈ idleSprite.animationInstances, it.animation = 0) ∧
      Sprite_PlayAnimation idleSprite "idle" AnimationMode.Once 1 = idleSprite :=
  ⟨by simp [findAnimation, idleSprite, demoResource, List.lookup],
    ⟨⟨0, AnimationMode.Loop, 0, 1, 0⟩, by simp [idleSprite], rfl⟩,
    (Sprite_PlayAnimation_already_played idleSprite "idle" AnimationMode.Once
      AnimationMode.Loop 1 0).1 0
      (by simp [findAnimation, idleSprite, demoResource, List.lookup])
      ⟨⟨0, AnimationMode.Loop, 0, 1, 0⟩, by simp [idleSprite], rfl⟩⟩

/-! ## C5: linear cross-fade -/

/-- C5: over exact rationals, for a transition time `T > 0`, a mode that is not a when-done
mode and a sprite none of whose instances plays the animation `c` that the name resolves
to, instance weights being at most 1 as in the data model: `Sprite_PlayAnimation` leaves
the older instances with weight change `-1/T`, followed by the new instance with weight 0
and weight change `1/T`; and one `Sprite_Update` with `dt > 0` in which no instance
completes and nothing is promoted leaves the new instance with weight `min 1 (dt/T)` and
each older instance of previous weight `w` with weight `w - dt/T` when that is positive,
dropping it otherwise. -/
theorem crossfade_linear (sprite : SpriteObj) (name : String) (c : AnimPtr)
    (mode : AnimationMode) (T dt : ℚ)
    (hfind : findAnimation sprite.resource name = some c)
    (hnew : ∀ it ∈ sprite.animationInstances, it.animation ≠ c)
    (hmode : isWhenDone mode = false)
    (hT : 0 < T)
    (hw : ∀ it ∈ sprite.animationInstances, it.weight ≤ 1)
    (hdt : 0 < dt)
    (hrun : ∀ it ∈ (Sprite_PlayAnimation sprite name mode T).animationInstances,
      completes sprite.resource dt it = false)
    (hkick : Sprite_Update_kicks (Sprite_PlayAnimation sprite name mode T) dt = false) :
    (Sprite_PlayAnimation sprite name mode T).animationInstances =
        sprite.animationInstances.map (fun it => { it with weightChangeSpeed := -(1 / T) }) ++
          [⟨c, mode, 0, 0, 1 / T⟩] ∧
      (Sprite_Update (Sprite_PlayAnimation sprite name mode T) dt).animationInstances =
        sprite.animationInstances.filterMap (fun it =>
            if 0 < it.weight - dt / T then
              some ⟨it.animation, it.mode, if isWhenDone it.mode then it.time else it.time + dt,
                it.weight - dt / T, -(1 / T)⟩
            else none) ++
          [⟨c, mode, dt, min 1 (dt / T), if 1 ≤ dt / T then 0 else 1 / T⟩] := by
  have hT0 : T ≠ 0 := ne_of_gt hT
  have hplay := Sprite_PlayAnimation_fresh sprite name c mode T hfind hnew
  simp only [hmode, hT0, if_true, if_false] at hplay
  have hq : 0 < dt / T := div_pos hdt hT
  rw [hplay] at hrun hkick ⊢
  refine ⟨rfl, ?_⟩
  rw [Sprite_Update_instances, Sprite_Update_kicked_of_not_kicks _ dt hkick]
  have hpushed : Sprite_Update_pushed
      { sprite with animationInstances :=
          sprite.animationInstances.map (fun it => { it with weightChangeSpeed := -(1 / T) }) ++
            [⟨c, mode, 0, 0, 1 / T⟩] } dt =
      sprite.animationInstances.filterMap (fun it =>
            if 0 < it.weight - dt / T then
              some ⟨it.animation, it.mode, if isWhenDone it.mode then it.time else it.time + dt,
                it.weight - dt / T, -(1 / T)⟩
            else none) ++
          [⟨c, mode, dt, min 1 (dt / T), if 1 ≤ dt / T then 0 else 1 / T⟩] := by
    unfold Sprite_Update_pushed Sprite_Update_steps
    rw [pushed_filterMap]
    simp only [List.filterMap_append, List.filterMap_map]
    congr 1
    · apply filterMap_ext_mem
      intro it hit
      have hc := hrun { it with weightChangeSpeed := -(1 / T) }
        (List.mem_append_left _ (List.mem_map_of_mem _ hit))
      obtain ⟨h1, h2, -, -⟩ := body_of_not_completes
        { sprite with animationInstances :=
          sprite.animationInstances.map (fun it => { it with weightChangeSpeed := -(1 / T) }) ++
            [⟨c, mode, 0, 0, 1 / T⟩] } dt { it with weightChangeSpeed := -(1 / T) } hc
      simp only [Function.comp, h1, h2]
      have harith : it.weight + -(1 / T) * dt = it.weight - dt / T := by
        field_simp
        ring
      have hlt : it.weight + -(1 / T) * dt < 1 := by
        rw [harith]
        have := hw it hit
        linarith
      by_cases hpos : 0 < it.weight - dt / T
      · rw [Sprite_Update_weight_part _ dt (by rw [← harith] at hpos; exact hpos) hlt]
        simp only [if_pos hpos, if_true, harith]
      · rw [Sprite_Update_weight_drop _ dt (by rw [← harith] at hpos; exact not_lt.mp hpos)]
        simp only [if_neg hpos]
        simp
    · have hc := hrun ⟨c, mode, 0, 0, 1 / T⟩ (List.mem_append_right _ (List.mem_singleton_self _))
      obtain ⟨h1, h2, -, -⟩ := body_of_not_completes
        { sprite with animationInstances :=
          sprite.animationInstances.map (fun it => { it with weightChangeSpeed := -(1 / T) }) ++
            [⟨c, mode, 0, 0, 1 / T⟩] } dt ⟨c, mode, 0, 0, 1 / T⟩ hc
      have harith : (0 : ℚ) + 1 / T * dt = dt / T := by field_simp
      have h3 : (0 : ℚ) < 0 + 1 / T * dt := by rw [harith]; exact hq
      simp only [List.filterMap_cons, List.filterMap_nil, h1, h2, hmode]
      by_cases hfull : 1 ≤ dt / T
      · rw [Sprite_Update_weight_full _ dt h3 (by rw [← harith] at hfull; exact hfull)]
        simp [if_pos hfull, min_eq_left hfull]
      · have hlt : dt / T < 1 := not_le.mp hfull
        rw [Sprite_Update_weight_part _ dt h3 (by rw [← harith] at hlt; exact hlt)]
        simp only [if_neg hfull, min_eq_right (le_of_lt hlt), harith, Bool.false_eq_true,
          if_true, if_false, zero_add]
  rw [hpushed]
  simp

/-- C5 on `idleSprite` with `T = 0.5` and `dt = 0.25`: the weight change is 2 per second,
the new instance `walk` reaches weight 0.5 and the older instance `idle` goes down by
0.5. -/
theorem crossfade_linear_witness :
    (Sprite_PlayAnimation idleSprite "walk" AnimationMode.Loop (1/2)).animationInstances =
        [⟨0, AnimationMode.Loop, 0, 1, -2⟩, ⟨3, AnimationMode.Loop, 0, 0, 2⟩] ∧
      (Sprite_Update (Sprite_PlayAnimation idleSprite "walk" AnimationMode.Loop (1/2))
          (1/4)).animationInstances =
        [⟨0, AnimationMode.Loop, 1/4, 1/2, -2⟩, ⟨3, AnimationMode.Loop, 1/4, 1/2, 2⟩] := by
  have hplay : Sprite_PlayAnimation idleSprite "walk" AnimationMode.Loop (1/2) =
      ⟨demoResource, [⟨0, AnimationMode.Loop, 0, 1, -2⟩, ⟨3, AnimationMode.Loop, 0, 0, 2⟩],
        false⟩ := by
    simp [Sprite_PlayAnimation, findAnimation, demoResource, idleSprite, List.lookup]
  have h := crossfade_linear idleSprite "walk" 3 AnimationMode.Loop (1/2) (1/4)
    (by simp [findAnimation, idleSprite, demoResource, List.lookup])
    (by simp [idleSprite])
    rfl (by norm_num) (by simp [idleSprite]) (by norm_num)
    (by
      rw [hplay]
      simp [completes, isWhenDone, idleSprite, demoResource, idleClip, walkClip]
      norm_num)
    (by
      rw [hplay]
      exact Sprite_Update_kicks_of_no_held _ _ (by simp [isWhenDone]))
  refine ⟨by rw [hplay], ?_⟩
  rw [h.2]
  simp [idleSprite, isWhenDone, List.filterMap_cons]
  norm_num

/-! ## C6: frame interpolation at draw time -/

/-- C6: over exact rationals, for an animation with at least two frames, `frameTime > 0`,
`totalTime = frameTime * frameCount` and a time with `0 ≤ time < totalTime`, the frame
computation of `Sprite_Draw` yields `firstFrameIndex = ⌊frameCount * time / totalTime⌋ =
⌊time / frameTime⌋` with `0 ≤ firstFrameIndex ≤ frameCount - 1`, `nextFrameIndex =
(firstFrameIndex + 1) mod frameCount`, itself a valid frame index, and `lerp = frameCount *
time / totalTime - firstFrameIndex` with `0 ≤ lerp < 1`. -/
theorem Sprite_Draw_frames_interpolation (animation : Animation) (time : ℚ)
    (hcount : 2 ≤ animation.frames.length)
    (hframe : 0 < animation.frameTime)
    (htotal : animation.totalTime = animation.frameTime * (animation.frames.length : ℚ))
    (h0 : 0 ≤ time) (h1 : time < animation.totalTime) :
    (Sprite_Draw_frames animation time).firstFrameIndex =
        ⌊(animation.frames.length : ℚ) * time / animation.totalTime⌋ ∧
      (Sprite_Draw_frames animation time).firstFrameIndex = ⌊time / animation.frameTime⌋ ∧
      0 ≤ (Sprite_Draw_frames animation time).firstFrameIndex ∧
      (Sprite_Draw_frames animation time).firstFrameIndex ≤
        (animation.frames.length : ℤ) - 1 ∧
      (Sprite_Draw_frames animation time).nextFrameIndex =
        some (((Sprite_Draw_frames animation time).firstFrameIndex + 1) %
          (animation.frames.length : ℤ)) ∧
      0 ≤ ((Sprite_Draw_frames animation time).firstFrameIndex + 1) %
          (animation.frames.length : ℤ) ∧
      ((Sprite_Draw_frames animation time).firstFrameIndex + 1) %
          (animation.frames.length : ℤ) < (animation.frames.length : ℤ) ∧
      (Sprite_Draw_frames animation time).lerp =
        (animation.frames.length : ℚ) * time / animation.totalTime -
          ((Sprite_Draw_frames animation time).firstFrameIndex : ℚ) ∧
      0 ≤ (Sprite_Draw_frames animation time).lerp ∧
      (Sprite_Draw_frames animation time).lerp < 1 := by
  have hn : (0 : ℚ) < (animation.frames.length : ℚ) := by
    have : 0 < animation.frames.length := by omega
    exact_mod_cast this
  have hnz : (0 : ℤ) < (animation.frames.length : ℤ) := by
    have : 0 < animation.frames.length := by omega
    exact_mod_cast this
  have htpos : 0 < animation.totalTime := by rw [htotal]; exact mul_pos hframe hn
  have hne1 : animation.frames.length ≠ 1 := by omega
  have hp : (animation.frames.length : ℚ) * (time / animation.totalTime) =
      time / animation.frameTime := by
    rw [htotal]
    field_simp
    ring
  have hp2 : (animation.frames.length : ℚ) * time / animation.totalTime =
      time / animation.frameTime := by
    rw [mul_div_assoc]; exact hp
  have hq0 : 0 ≤ time / animation.frameTime := div_nonneg h0 (le_of_lt hframe)
  have hqn : time / animation.frameTime < (animation.frames.length : ℚ) := by
    rw [div_lt_iff₀ hframe, mul_comm, ← htotal]
    exact h1
  have hfl0 : 0 ≤ ⌊time / animation.frameTime⌋ := Int.floor_nonneg.mpr hq0
  have hfln : ⌊time / animation.frameTime⌋ ≤ (animation.frames.length : ℤ) - 1 := by
    have : ⌊time / animation.frameTime⌋ < (animation.frames.length : ℤ) := by
      rw [Int.floor_lt]
      exact_mod_cast hqn
    omega
  have hfirst : (Sprite_Draw_frames animation time).firstFrameIndex =
      ⌊time / animation.frameTime⌋ := by
    simp only [Sprite_Draw_frames, if_neg hne1, hp]
    exact clamp_of_mem _ _ _ hfl0 hfln
  have hnext : (Sprite_Draw_frames animation time).nextFrameIndex =
      some ((⌊time / animation.frameTime⌋ + 1) % (animation.frames.length : ℤ)) := by
    simp only [Sprite_Draw_frames, if_neg hne1, hp]
    rw [clamp_of_mem _ _ _ hfl0 hfln]
  have hlerp : (Sprite_Draw_frames animation time).lerp =
      time / animation.frameTime - (⌊time / animation.frameTime⌋ : ℚ) := by
    simp only [Sprite_Draw_frames, if_neg hne1, hp]
  rw [hfirst, hnext, hlerp, hp2]
  refine ⟨rfl, rfl, hfl0, hfln, rfl, Int.emod_nonneg _ (ne_of_gt hnz),
    Int.emod_lt_of_pos _ hnz, rfl, ?_, ?_⟩
  · exact sub_nonneg.mpr (Int.floor_le _)
  · have := Int.lt_floor_add_one (time / animation.frameTime)
    linarith

/-- C6 on `walkClip` (4 frames of 0.25 s) at time 0.6 s: first frame 2, next frame 3,
blend factor 0.4. -/
theorem Sprite_Draw_frames_interpolation_witness :
    Sprite_Draw_frames walkClip (3/5) = ⟨2, some 3, 2/5⟩ := by
  have h := Sprite_Draw_frames_interpolation walkClip (3/5) (by simp [walkClip])
    (by norm_num [walkClip]) (by norm_num [walkClip]) (by norm_num) (by norm_num [walkClip])
  obtain ⟨-, h2, -, -, h5, -, -, h8, -, -⟩ := h
  have hfl : ⌊(3/5 : ℚ) / walkClip.frameTime⌋ = 2 := by
    norm_num [walkClip, Int.floor_eq_iff]
  rw [hfl] at h2
  rw [h2] at h5 h8
  have e : Sprite_Draw_frames walkClip (3/5) =
      ⟨(Sprite_Draw_frames walkClip (3/5)).firstFrameIndex,
       (Sprite_Draw_frames walkClip (3/5)).nextFrameIndex,
       (Sprite_Draw_frames walkClip (3/5)).lerp⟩ := rfl
  rw [e, h2, h5, h8]
  norm_num [walkClip]

/-! ## C7: at most one instance per animation -/

/-- C7: in every sprite reached from a newly created one by any sequence of calls of
`Sprite_PlayAnimation`, `Sprite_Update` and `Sprite_SetEventCallback`, the animations that
the instances of the list point to are pairwise distinct; and this property of a list is
preserved by `Sprite_PlayAnimation` and by `Sprite_Update` from any sprite that has it. -/
theorem one_instance_per_animation (resource : SpriteResource) :
    (∀ calls : List Call,
      (playedAnimations (runCalls (Sprite_Create resource) calls)).Nodup) ∧
    (∀ (sprite : SpriteObj) (name : String) (mode : AnimationMode) (transitionTime : ℚ),
      (playedAnimations sprite).Nodup →
      (playedAnimations (Sprite_PlayAnimation sprite name mode transitionTime)).Nodup) ∧
    (∀ (sprite : SpriteObj) (dt : ℚ), (playedAnimations sprite).Nodup →
      (playedAnimations (Sprite_Update sprite dt)).Nodup) := by
  refine ⟨fun calls => runCalls_nodup calls _ ?_, Sprite_PlayAnimation_nodup,
    Sprite_Update_nodup⟩
  unfold playedAnimations
  rw [Sprite_Create_instances]
  simp

/-- C7 on the calls of `stuckCalls`: the two instances left point to different
animations. -/
theorem one_instance_per_animation_witness :
    (playedAnimations (runCalls (Sprite_Create demoResource) stuckCalls)).Nodup ∧
      (playedAnimations idleSprite).Nodup ∧
      (playedAnimations (Sprite_Update idleSprite 1)).Nodup :=
  ⟨(one_instance_per_animation demoResource).1 stuckCalls,
    by simp [playedAnimations, idleSprite],
    (one_instance_per_animation demoResource).2.2 idleSprite 1
      (by simp [playedAnimations, idleSprite])⟩

/-! ## C8: the selection of `Sprite_Draw` -/

/-- C8, evaluated on `demoResource` (every animation has a positive total time) and the
calls of `stuckCalls` (transition times 1 and 0, time steps 1/2): the list they leave holds
an `OnceWhenDone` and a `LoopWhenDone` instance and nothing else, and the selection loop of
`Sprite_Draw` selects nothing on it, which is the case its `Assert` excludes. -/
theorem draw_selection_can_be_empty :
    (∀ p, 0 < (demoResource.mem p).totalTime) ∧
    (runCalls (Sprite_Create demoResource) stuckCalls).animationInstances =
      [⟨2, AnimationMode.OnceWhenDone, 0, 1, 0⟩, ⟨3, AnimationMode.LoopWhenDone, 0, 1, 0⟩] ∧
    Sprite_Draw_select (runCalls (Sprite_Create demoResource) stuckCalls).animationInstances =
      none := by
  refine ⟨demoResource_totalTime_pos, ?_, ?_⟩
  · rw [stuck_result]
  · rw [stuck_result]
    simp [Sprite_Draw_select, Sprite_Draw_select_step]

/-! ## C9: the list that `Sprite_PlayAnimation` builds -/

/-- C9: when the name resolves to an animation `c` that no instance of the list points to,
`Sprite_PlayAnimation` leaves (i) for a mode that is not a when-done mode and `T = 0`
exactly one instance `[c, mode, time 0, weight 1, weight change 0]`; (ii) for such a mode
and `T ≠ 0` the previous instances in the same order with animation, mode, time and weight
unchanged and weight change `-1/T`, followed by `[c, mode, time 0, weight 0, weight change
1/T]`; (iii) for `OnceWhenDone` or `LoopWhenDone` the previous instances unchanged,
followed by the new instance with time 0, weight `1` if `T = 0` and `0` otherwise, and
weight change `0` if `T = 0` and `1/T` otherwise. -/
theorem Sprite_PlayAnimation_appends (sprite : SpriteObj) (name : String) (c : AnimPtr)
    (mode : AnimationMode) (T : ℚ)
    (hfind : findAnimation sprite.resource name = some c)
    (hnew : ∀ it ∈ sprite.animationInstances, it.animation ≠ c) :
    (isWhenDone mode = false → T = 0 →
      (Sprite_PlayAnimation sprite name mode T).animationInstances = [⟨c, mode, 0, 1, 0⟩]) ∧
    (isWhenDone mode = false → T ≠ 0 →
      (Sprite_PlayAnimation sprite name mode T).animationInstances =
        sprite.animationInstances.map (fun it =>
          ⟨it.animation, it.mode, it.time, it.weight, -(1 / T)⟩) ++
          [⟨c, mode, 0, 0, 1 / T⟩]) ∧
    (isWhenDone mode = true →
      (Sprite_PlayAnimation sprite name mode T).animationInstances =
        sprite.animationInstances ++
          [⟨c, mode, 0, if T = 0 then 1 else 0, if T = 0 then 0 else 1 / T⟩]) := by
  rw [Sprite_PlayAnimation_fresh sprite name c mode T hfind hnew]
  refine ⟨fun hm hT => ?_, fun hm hT => ?_, fun hm => ?_⟩
  · simp [hm, hT]
  · simp [hm, hT]
  · simp [hm]

/-- C9 on `idleSprite`: `walk` started in mode `Loop` with a transition of half a second
sets the weight change of `idle` to -2 and appends `walk` at weight 0 with weight
change 2. -/
theorem Sprite_PlayAnimation_appends_witness :
    (Sprite_PlayAnimation idleSprite "walk" AnimationMode.Loop (1/2)).animationInstances =
      idleSprite.animationInstances.map (fun it =>
        ⟨it.animation, it.mode, it.time, it.weight, -(1 / (1/2 : ℚ))⟩) ++
        [⟨3, AnimationMode.Loop, 0, 0, 1 / (1/2 : ℚ)⟩] :=
  (Sprite_PlayAnimation_appends idleSprite "walk" 3 AnimationMode.Loop (1/2)
    (by simp [findAnimation, idleSprite, demoResource, List.lookup])
    (by simp [idleSprite])).2.1 rfl (by norm_num)

/-! ## C10: a `Loop` instance keeps its phase when it wraps -/

/-- C10: over exact rationals, for a `Loop` instance of the list with weight 1 and weight
change 0 on an animation with `totalTime > 0`, and a time step with `time + dt ≥
totalTime`, when no when-done instance is promoted the instance is in the list after
`Sprite_Update` with time `fmod (time + dt) totalTime`, which is the remainder `(time + dt)
- ⌊(time + dt) / totalTime⌋ * totalTime` and lies in `[0, totalTime)`. -/
theorem loop_wrap_keeps_phase (sprite : SpriteObj) (dt : ℚ) (a : AnimPtr) (t : ℚ)
    (hmem : (⟨a, AnimationMode.Loop, t, 1, 0⟩ : AnimationInstance) ∈ sprite.animationInstances)
    (htotal : 0 < (sprite.resource.mem a).totalTime)
    (hwrap : (sprite.resource.mem a).totalTime ≤ t + dt)
    (hkick : Sprite_Update_kicks sprite dt = false) :
    (⟨a, AnimationMode.Loop, fmod (t + dt) (sprite.resource.mem a).totalTime, 1, 0⟩ :
        AnimationInstance) ∈ (Sprite_Update sprite dt).animationInstances ∧
      fmod (t + dt) (sprite.resource.mem a).totalTime =
        (t + dt) - (⌊(t + dt) / (sprite.resource.mem a).totalTime⌋ : ℚ) *
          (sprite.resource.mem a).totalTime ∧
      0 ≤ fmod (t + dt) (sprite.resource.mem a).totalTime ∧
      fmod (t + dt) (sprite.resource.mem a).totalTime < (sprite.resource.mem a).totalTime := by
  have hx : 0 ≤ t + dt := le_trans (le_of_lt htotal) hwrap
  refine ⟨?_, fmod_eq_floor _ _ hx htotal, fmod_nonneg _ _ hx htotal, fmod_lt _ _ hx htotal⟩
  have hbody : Sprite_Update_body sprite dt ⟨a, AnimationMode.Loop, t, 1, 0⟩ =
      { inst := ⟨a, AnimationMode.Loop, fmod (t + dt) (sprite.resource.mem a).totalTime, 1, 0⟩
        pushed := true, done := true, held := false
        fired := Sprite_FireAnimationEvents sprite (sprite.resource.mem a) t
          (fmod (t + dt) (sprite.resource.mem a).totalTime) dt
        assertFailed := false } := by
    simp [Sprite_Update_body, isWhenDone, hwrap, Sprite_Update_weight_steady]
  have hpushed : (⟨a, AnimationMode.Loop, fmod (t + dt) (sprite.resource.mem a).totalTime, 1, 0⟩ :
      AnimationInstance) ∈ Sprite_Update_pushed sprite dt := by
    unfold Sprite_Update_pushed Sprite_Update_steps
    rw [List.mem_map]
    refine ⟨Sprite_Update_body sprite dt ⟨a, AnimationMode.Loop, t, 1, 0⟩, ?_, by rw [hbody]⟩
    rw [List.mem_filter]
    exact ⟨List.mem_map_of_mem _ hmem, by rw [hbody]⟩
  rw [Sprite_Update_instances, Sprite_Update_kicked_of_not_kicks sprite dt hkick]
  have hne : Sprite_Update_pushed sprite dt ≠ [] := List.ne_nil_of_mem hpushed
  rw [if_neg hne]
  exact hpushed

/-- C10 on `wrapSprite`: from 0.9 s a step of 0.2 s takes `walk` (1 s long) to 1.1 s, and the
instance is kept at 0.1 s. -/
theorem loop_wrap_keeps_phase_witness :
    (⟨3, AnimationMode.Loop, 1/10, 1, 0⟩ : AnimationInstance) ∈
      (Sprite_Update wrapSprite (1/5)).animationInstances := by
  have h := (loop_wrap_keeps_phase wrapSprite (1/5) 3 (9/10)
    (by simp [wrapSprite])
    (by norm_num [wrapSprite, demoResource, walkClip])
    (by norm_num [wrapSprite, demoResource, walkClip])
    (Sprite_Update_kicks_of_no_held _ _ (by simp [wrapSprite, isWhenDone]))).1
  have e : fmod (9/10 + 1/5) (wrapSprite.resource.mem 3).totalTime = 1/10 := by
    have : (wrapSprite.resource.mem 3).totalTime = 1 := by
      simp [wrapSprite, demoResource, walkClip]
    rw [this]
    norm_num [fmod, truncQ]
  rw [e] at h
  exact h

/-! ## Further general lemmas -/

/-- `Sprite_PlayAnimation` leaves the resource and the callback of the sprite as they are. -/
theorem Sprite_PlayAnimation_resource (sprite : SpriteObj) (name : String)
    (mode : AnimationMode) (T : ℚ) :
    (Sprite_PlayAnimation sprite name mode T).resource = sprite.resource ∧
      (Sprite_PlayAnimation sprite name mode T).callback = sprite.callback := by
  unfold Sprite_PlayAnimation
  cases findAnimation sprite.resource name with
  | none => exact ⟨rfl, rfl⟩
  | some c =>
    by_cases h : sprite.animationInstances.any (fun it => it.animation == c) = true
    · simp [h]
    · simp [h]

/-- `Sprite_Update` leaves the resource and the callback of the sprite as they are. -/
theorem Sprite_Update_resource (sprite : SpriteObj) (dt : ℚ) :
    (Sprite_Update sprite dt).resource = sprite.resource ∧
      (Sprite_Update sprite dt).callback = sprite.callback := by
  by_cases h : (Sprite_Update_kicked sprite dt).length = 0
  · simp only [Sprite_Update, h, if_true, Sprite_PlayAnimation_default]
    exact Sprite_PlayAnimation_resource _ _ _ _
  · simp [Sprite_Update, h]

/-- No call changes the resource of the sprite. -/
theorem Call.run_resource (sprite : SpriteObj) (call : Call) :
    (Call.run sprite call).resource = sprite.resource := by
  cases call with
  | play name mode T => exact (Sprite_PlayAnimation_resource sprite name mode T).1
  | update dt => exact (Sprite_Update_resource sprite dt).1
  | setEventCallback cb => rfl

/-- A property of sprites that every admitted call preserves holds after any sequence of
admitted calls. -/
theorem runCalls_preserves (P : SpriteObj → Prop) (ok : Call → Prop)
    (hstep : ∀ sprite call, ok call → P sprite → P (Call.run sprite call))
    (calls : List Call) :
    ∀ sprite, (∀ call ∈ calls, ok call) → P sprite → P (runCalls sprite calls) := by
  induction calls with
  | nil => intro sprite _ h; exact h
  | cons call rest ih =>
    intro sprite hok h
    exact ih _ (fun c hc => hok c (List.mem_cons_of_mem _ hc))
      (hstep sprite call (hok call (List.mem_cons_self _ _)) h)

/-- The five ways through the loop body of `Sprite_Update`, with the final value of `*it`
and whether it is pushed: a when-done instance (its time is not advanced), an instance that
stays below the total time, a `Loop` that wraps, an `Once` that completes (never pushed),
an `OnceAndFreeze` that completes. -/
theorem Sprite_Update_body_cases (sprite : SpriteObj) (dt : ℚ) (it : AnimationInstance) :
    (isWhenDone it.mode = true ∧
      (Sprite_Update_body sprite dt it).inst = (Sprite_Update_weight it dt).1 ∧
      (Sprite_Update_body sprite dt it).pushed = (Sprite_Update_weight it dt).2) ∨
    (isWhenDone it.mode = false ∧
      it.time + dt < (sprite.resource.mem it.animation).totalTime ∧
      (Sprite_Update_body sprite dt it).inst =
        (Sprite_Update_weight { it with time := it.time + dt } dt).1 ∧
      (Sprite_Update_body sprite dt it).pushed =
        (Sprite_Update_weight { it with time := it.time + dt } dt).2) ∨
    (it.mode = AnimationMode.Loop ∧
      (sprite.resource.mem it.animation).totalTime ≤ it.time + dt ∧
      (Sprite_Update_body sprite dt it).inst =
        (Sprite_Update_weight { it with
          time := fmod (it.time + dt) (sprite.resource.mem it.animation).totalTime } dt).1 ∧
      (Sprite_Update_body sprite dt it).pushed =
        (Sprite_Update_weight { it with
          time := fmod (it.time + dt) (sprite.resource.mem it.animation).totalTime } dt).2) ∨
    (it.mode = AnimationMode.Once ∧
      (sprite.resource.mem it.animation).totalTime ≤ it.time + dt ∧
      (Sprite_Update_body sprite dt it).pushed = false) ∨
    (it.mode = AnimationMode.OnceAndFreeze ∧
      (sprite.resource.mem it.animation).totalTime ≤ it.time + dt ∧
      (Sprite_Update_body sprite dt it).inst =
        (Sprite_Update_weight { it with
          time := (sprite.resource.mem it.animation).totalTime } dt).1 ∧
      (Sprite_Update_body sprite dt it).pushed =
        (Sprite_Update_weight { it with
          time := (sprite.resource.mem it.animation).totalTime } dt).2) := by
  obtain ⟨a, m, t, w, v⟩ := it
  cases m
  · by_cases hc : (sprite.resource.mem a).totalTime ≤ t + dt
    · exact Or.inr (Or.inr (Or.inl ⟨rfl, hc,
        by simp [Sprite_Update_body, isWhenDone, hc],
        by simp [Sprite_Update_body, isWhenDone, hc]⟩))
    · exact Or.inr (Or.inl ⟨rfl, not_le.mp hc,
        by simp [Sprite_Update_body, isWhenDone, hc],
        by simp [Sprite_Update_body, isWhenDone, hc]⟩)
  · by_cases hc : (sprite.resource.mem a).totalTime ≤ t + dt
    · exact Or.inr (Or.inr (Or.inr (Or.inl ⟨rfl, hc,
        by simp [Sprite_Update_body, isWhenDone, hc]⟩)))
    · exact Or.inr (Or.inl ⟨rfl, not_le.mp hc,
        by simp [Sprite_Update_body, isWhenDone, hc],
        by simp [Sprite_Update_body, isWhenDone, hc]⟩)
  · by_cases hc : (sprite.resource.mem a).totalTime ≤ t + dt
    · exact Or.inr (Or.inr (Or.inr (Or.inr ⟨rfl, hc,
        by simp [Sprite_Update_body, isWhenDone, hc],
        by simp [Sprite_Update_body, isWhenDone, hc]⟩)))
    · exact Or.inr (Or.inl ⟨rfl, not_le.mp hc,
        by simp [Sprite_Update_body, isWhenDone, hc],
        by simp [Sprite_Update_body, isWhenDone, hc]⟩)
  · by_cases hc : (sprite.resource.mem a).totalTime ≤ t
    · exact Or.inl ⟨rfl, by simp [Sprite_Update_body, isWhenDone, hc],
        by simp [Sprite_Update_body, isWhenDone, hc]⟩
    · exact Or.inl ⟨rfl, by simp [Sprite_Update_body, isWhenDone, hc],
        by simp [Sprite_Update_body, isWhenDone, hc]⟩
  · by_cases hc : (sprite.resource.mem a).totalTime ≤ t
    · exact Or.inl ⟨rfl, by simp [Sprite_Update_body, isWhenDone, hc],
        by simp [Sprite_Update_body, isWhenDone, hc]⟩
    · exact Or.inl ⟨rfl, by simp [Sprite_Update_body, isWhenDone, hc],
        by simp [Sprite_Update_body, isWhenDone, hc]⟩

/-- An iteration never changes the mode of an instance. -/
theorem Sprite_Update_body_mode (sprite : SpriteObj) (dt : ℚ) (it : AnimationInstance) :
    (Sprite_Update_body sprite dt it).inst.mode = it.mode := by
  obtain ⟨a, m, t, w, v⟩ := it
  cases m
  · by_cases hc : (sprite.resource.mem a).totalTime ≤ t + dt <;>
      simp [Sprite_Update_body, isWhenDone, hc, (Sprite_Update_weight_fields _ dt).2.1]
  · by_cases hc : (sprite.resource.mem a).totalTime ≤ t + dt <;>
      simp [Sprite_Update_body, isWhenDone, hc, (Sprite_Update_weight_fields _ dt).2.1]
  · by_cases hc : (sprite.resource.mem a).totalTime ≤ t + dt <;>
      simp [Sprite_Update_body, isWhenDone, hc, (Sprite_Update_weight_fields _ dt).2.1]
  · by_cases hc : (sprite.resource.mem a).totalTime ≤ t <;>
      simp [Sprite_Update_body, isWhenDone, hc, (Sprite_Update_weight_fields _ dt).2.1]
  · by_cases hc : (sprite.resource.mem a).totalTime ≤ t <;>
      simp [Sprite_Update_body, isWhenDone, hc, (Sprite_Update_weight_fields _ dt).2.1]

/-- An iteration never changes the time of an instance in a when-done mode. -/
theorem Sprite_Update_body_held_time (sprite : SpriteObj) (dt : ℚ) (it : AnimationInstance)
    (h : isWhenDone it.mode = true) :
    (Sprite_Update_body sprite dt it).inst.time = it.time := by
  rcases Sprite_Update_body_cases sprite dt it with
    ⟨-, hi, -⟩ | ⟨hm, -⟩ | ⟨hm, -⟩ | ⟨hm, -⟩ | ⟨hm, -⟩
  · rw [hi, (Sprite_Update_weight_fields _ dt).2.2]
  · rw [hm] at h; simp at h
  · rw [hm] at h; simp [isWhenDone] at h
  · rw [hm] at h; simp [isWhenDone] at h
  · rw [hm] at h; simp [isWhenDone] at h

/-- The `Assert` of the `default` case is hit only by a when-done instance whose time has
reached the total time. -/
theorem Sprite_Update_body_assert (sprite : SpriteObj) (dt : ℚ) (it : AnimationInstance)
    (h : (Sprite_Update_body sprite dt it).assertFailed = true) :
    isWhenDone it.mode = true ∧ (sprite.resource.mem it.animation).totalTime ≤ it.time := by
  obtain ⟨a, m, t, w, v⟩ := it
  cases m
  · by_cases hc : (sprite.resource.mem a).totalTime ≤ t + dt <;>
      simp [Sprite_Update_body, isWhenDone, hc] at h
  · by_cases hc : (sprite.resource.mem a).totalTime ≤ t + dt <;>
      simp [Sprite_Update_body, isWhenDone, hc] at h
  · by_cases hc : (sprite.resource.mem a).totalTime ≤ t + dt <;>
      simp [Sprite_Update_body, isWhenDone, hc] at h
  · by_cases hc : (sprite.resource.mem a).totalTime ≤ t
    · exact ⟨rfl, hc⟩
    · simp [Sprite_Update_body, isWhenDone, hc] at h
  · by_cases hc : (sprite.resource.mem a).totalTime ≤ t
    · exact ⟨rfl, hc⟩
    · simp [Sprite_Update_body, isWhenDone, hc] at h

/-- The promoted instance is in no when-done mode, has weight 1 and keeps its time. -/
theorem kickedInstance_fields (w : AnimationInstance) :
    isWhenDone (kickedInstance w).mode = false ∧ (kickedInstance w).weight = 1 ∧
      (kickedInstance w).time = w.time ∧ (kickedInstance w).animation = w.animation ∧
      (kickedInstance w).mode ≠ AnimationMode.OnceAndFreeze := by
  unfold kickedInstance
  by_cases h : w.mode = AnimationMode.OnceWhenDone
  · simp [h, isWhenDone]
  · simp [h, isWhenDone]

/-- An instance that an iteration pushes is among the pushed instances. -/
theorem mem_pushed (sprite : SpriteObj) (dt : ℚ) (it : AnimationInstance)
    (hmem : it ∈ sprite.animationInstances)
    (hpushed : (Sprite_Update_body sprite dt it).pushed = true) :
    (Sprite_Update_body sprite dt it).inst ∈ Sprite_Update_pushed sprite dt := by
  unfold Sprite_Update_pushed Sprite_Update_steps
  rw [List.mem_map]
  refine ⟨Sprite_Update_body sprite dt it, ?_, rfl⟩
  rw [List.mem_filter]
  exact ⟨List.mem_map_of_mem _ hmem, hpushed⟩

/-- An instance that an iteration pushes is in the list after `Sprite_Update` when nothing is
promoted. -/
theorem mem_Sprite_Update_of_pushed (sprite : SpriteObj) (dt : ℚ) (it : AnimationInstance)
    (hmem : it ∈ sprite.animationInstances)
    (hpushed : (Sprite_Update_body sprite dt it).pushed = true)
    (hkick : Sprite_Update_kicks sprite dt = false) :
    (Sprite_Update_body sprite dt it).inst ∈ (Sprite_Update sprite dt).animationInstances := by
  have hp : (Sprite_Update_body sprite dt it).inst ∈ Sprite_Update_pushed sprite dt := by
    unfold Sprite_Update_pushed Sprite_Update_steps
    rw [List.mem_map]
    refine ⟨Sprite_Update_body sprite dt it, ?_, rfl⟩
    rw [List.mem_filter]
    exact ⟨List.mem_map_of_mem _ hmem, hpushed⟩
  rw [Sprite_Update_instances, Sprite_Update_kicked_of_not_kicks sprite dt hkick,
    if_neg (List.ne_nil_of_mem hp)]
  exact hp

/-- Where an instance of the list after `Sprite_Update` comes from: the default instance,
an instance that an iteration pushed, or the promoted when-done instance. -/
theorem mem_Sprite_Update_cases (sprite : SpriteObj) (dt : ℚ) (x : AnimationInstance)
    (hx : x ∈ (Sprite_Update sprite dt).animationInstances) :
    x = defaultInstance sprite.resource ∨
      (∃ it ∈ sprite.animationInstances, (Sprite_Update_body sprite dt it).pushed = true ∧
        x = (Sprite_Update_body sprite dt it).inst) ∨
      (∃ it ∈ sprite.animationInstances, isWhenDone it.mode = true ∧
        x = kickedInstance (Sprite_Update_body sprite dt it).inst) := by
  rw [Sprite_Update_instances] at hx
  by_cases hnil : Sprite_Update_kicked sprite dt = []
  · rw [if_pos hnil] at hx
    exact Or.inl (List.mem_singleton.mp hx)
  · rw [if_neg hnil] at hx
    rcases Sprite_Update_kicked_cases sprite dt with hk | ⟨w, hw, hk⟩
    · rw [hk] at hx
      unfold Sprite_Update_pushed Sprite_Update_steps at hx
      rw [List.mem_map] at hx
      obtain ⟨st, hst, rfl⟩ := hx
      rw [List.mem_filter, List.mem_map] at hst
      obtain ⟨⟨it, hit, rfl⟩, hp⟩ := hst
      exact Or.inr (Or.inl ⟨it, hit, hp, rfl⟩)
    · rw [hk] at hx
      have hxw := List.mem_singleton.mp hx
      unfold Sprite_Update_instWhenDone Sprite_Update_steps at hw
      have hmem := List.mem_of_getLast?_eq_some hw
      rw [List.mem_map] at hmem
      obtain ⟨st, hst, rfl⟩ := hmem
      rw [List.mem_filter, List.mem_map] at hst
      obtain ⟨⟨it, hit, rfl⟩, hheld⟩ := hst
      rw [Sprite_Update_body_held] at hheld
      exact Or.inr (Or.inr ⟨it, hit, hheld, by rw [hxw]; rfl⟩)

/-- Where an instance of the list after `Sprite_PlayAnimation` comes from: an instance of
the list before, possibly with a new weight change, or the new instance. -/
theorem mem_Sprite_PlayAnimation_cases (sprite : SpriteObj) (name : String)
    (mode : AnimationMode) (T : ℚ) (x : AnimationInstance)
    (hx : x ∈ (Sprite_PlayAnimation sprite name mode T).animationInstances) :
    (∃ it ∈ sprite.animationInstances, ∃ v : ℚ, x = { it with weightChangeSpeed := v }) ∨
      (∃ c, x = ⟨c, mode, 0, if T = 0 then 1 else 0, if T = 0 then 0 else 1 / T⟩) := by
  unfold Sprite_PlayAnimation at hx
  cases hfind : findAnimation sprite.resource name with
  | none =>
    rw [hfind] at hx
    exact Or.inl ⟨x, hx, x.weightChangeSpeed, rfl⟩
  | some c =>
    rw [hfind] at hx
    by_cases hany : sprite.animationInstances.any (fun it => it.animation == c) = true
    · simp only [hany, if_true] at hx
      exact Or.inl ⟨x, hx, x.weightChangeSpeed, rfl⟩
    · simp only [hany, Bool.false_eq_true, if_false, List.mem_append,
        List.mem_singleton] at hx
      rcases hx with hx | hx
      · split_ifs at hx
        · simp at hx
        · rw [List.mem_map] at hx
          obtain ⟨it, hit, rfl⟩ := hx
          exact Or.inl ⟨it, hit, _, rfl⟩
        · exact Or.inl ⟨x, hx, x.weightChangeSpeed, rfl⟩
      · exact Or.inr ⟨c, hx⟩

/-- The pointer `instWhenDone` is set exactly when the copy holds a when-done instance. -/
theorem Sprite_Update_instWhenDone_isSome (sprite : SpriteObj) (dt : ℚ) :
    (Sprite_Update_instWhenDone sprite dt).isSome = true ↔
      ∃ it ∈ sprite.animationInstances, isWhenDone it.mode = true := by
  constructor
  · intro h
    rw [Option.isSome_iff_exists] at h
    obtain ⟨w, hw⟩ := h
    unfold Sprite_Update_instWhenDone Sprite_Update_steps at hw
    have hmem := List.mem_of_getLast?_eq_some hw
    rw [List.mem_map] at hmem
    obtain ⟨st, hst, -⟩ := hmem
    rw [List.mem_filter, List.mem_map] at hst
    obtain ⟨⟨it, hit, rfl⟩, hheld⟩ := hst
    rw [Sprite_Update_body_held] at hheld
    exact ⟨it, hit, hheld⟩
  · rintro ⟨it, hit, hheld⟩
    by_contra hnone
    have hn : Sprite_Update_instWhenDone sprite dt = none := by
      simpa using hnone
    unfold Sprite_Update_instWhenDone Sprite_Update_steps at hn
    rw [List.getLast?_eq_none_iff, List.map_eq_nil_iff, List.filter_eq_nil_iff] at hn
    have := hn (Sprite_Update_body sprite dt it) (List.mem_map_of_mem _ hit)
    rw [Sprite_Update_body_held, hheld] at this
    exact this rfl

/-- After any sequence of calls on a new sprite every when-done instance stands at time 0. -/
theorem runCalls_held_at_zero (resource : SpriteResource) (calls : List Call) :
    (runCalls (Sprite_Create resource) calls).resource = resource ∧
      ∀ it ∈ (runCalls (Sprite_Create resource) calls).animationInstances,
        isWhenDone it.mode = true → it.time = 0 := by
  apply runCalls_preserves
    (fun sprite => sprite.resource = resource ∧
      ∀ it ∈ sprite.animationInstances, isWhenDone it.mode = true → it.time = 0)
    (fun _ => True) ?_ calls (Sprite_Create resource) (fun _ _ => trivial)
  · refine ⟨(Sprite_PlayAnimation_resource _ _ _ _).1, ?_⟩
    intro it hit
    rw [Sprite_Create_instances, List.mem_singleton] at hit
    rw [hit]
    simp [defaultInstance]
  · intro sprite call _ hinv
    refine ⟨by rw [Call.run_resource]; exact hinv.1, ?_⟩
    cases call with
    | play name mode T =>
      intro x hx hheld
      rcases mem_Sprite_PlayAnimation_cases sprite name mode T x hx with
        ⟨it, hit, v, rfl⟩ | ⟨c, rfl⟩
      · exact hinv.2 it hit hheld
      · rfl
    | update dt =>
      intro x hx hheld
      rcases mem_Sprite_Update_cases sprite dt x hx with rfl | ⟨it, hit, -, rfl⟩ | ⟨it, -, -, rfl⟩
      · simp [defaultInstance, isWhenDone] at hheld
      · rw [Sprite_Update_body_mode] at hheld
        rw [Sprite_Update_body_held_time sprite dt it hheld]
        exact hinv.2 it hit hheld
      · rw [(kickedInstance_fields _).1] at hheld
        simp at hheld
    | setEventCallback cb => exact hinv.2

/-- A steady `OnceAndFreeze` instance that reaches the total time is pushed with the total
time as its time. -/
theorem body_freeze_done (sprite : SpriteObj) (dt : ℚ) (a : AnimPtr) (t : ℚ)
    (h : (sprite.resource.mem a).totalTime ≤ t + dt) :
    (Sprite_Update_body sprite dt ⟨a, AnimationMode.OnceAndFreeze, t, 1, 0⟩).inst =
        ⟨a, AnimationMode.OnceAndFreeze, (sprite.resource.mem a).totalTime, 1, 0⟩ ∧
      (Sprite_Update_body sprite dt ⟨a, AnimationMode.OnceAndFreeze, t, 1, 0⟩).pushed = true := by
  simp [Sprite_Update_body, isWhenDone, h, Sprite_Update_weight_steady]

/-- A frozen instance stays frozen through updates with time steps that are not negative
and promote nothing. -/
theorem frozen_stays (a : AnimPtr) (dts : List ℚ) :
    ∀ sprite : SpriteObj,
      (⟨a, AnimationMode.OnceAndFreeze, (sprite.resource.mem a).totalTime, 1, 0⟩ :
        AnimationInstance) ∈ sprite.animationInstances →
      (∀ d ∈ dts, 0 ≤ d) → neverKicks sprite dts = true →
      (⟨a, AnimationMode.OnceAndFreeze, (sprite.resource.mem a).totalTime, 1, 0⟩ :
        AnimationInstance) ∈ (advanceAll sprite dts).animationInstances := by
  induction dts with
  | nil => intro sprite h _ _; exact h
  | cons d rest ih =>
    intro sprite hmem hpos hkick
    simp only [neverKicks, Bool.and_eq_true, Bool.not_eq_true'] at hkick
    have hd : (sprite.resource.mem a).totalTime ≤ (sprite.resource.mem a).totalTime + d := by
      have := hpos d (List.mem_cons_self _ _)
      linarith
    have hb := body_freeze_done sprite d a _ hd
    have hstep := mem_Sprite_Update_of_pushed sprite d _ hmem hb.2 hkick.1
    rw [hb.1] at hstep
    have hres := (Sprite_Update_resource sprite d).1
    have := ih (Sprite_Update sprite d) (by rw [hres]; exact hstep)
      (fun x hx => hpos x (List.mem_cons_of_mem _ hx)) hkick.2
    rw [hres] at this
    simpa [advanceAll] using this

/-- The first update of `freezeSprite` freezes `walk` at its total time. -/
theorem freezeSprite_update :
    Sprite_Update freezeSprite (1/5) =
      ⟨demoResource, [⟨3, AnimationMode.OnceAndFreeze, 1, 1, 0⟩], false⟩ := by
  simp [Sprite_Update, Sprite_Update_kicked, Sprite_Update_instWhenDone,
    Sprite_Update_doneAnim, Sprite_Update_pushed, Sprite_Update_steps, Sprite_Update_body,
    Sprite_Update_weight, isWhenDone, freezeSprite, demoResource, walkClip,
    Sprite_FireAnimationEvents]
  norm_num
  simp

/-- No update of `freezeSprite` promotes anything: it has no when-done instance. -/
theorem freezeSprite_never_kicks : neverKicks freezeSprite [1/5, 1/2] = true := by
  simp only [neverKicks, freezeSprite_update, Bool.and_true, Bool.and_eq_true,
    Bool.not_eq_true']
  exact ⟨Sprite_Update_kicks_of_no_held _ _ (by simp [freezeSprite, isWhenDone]),
    Sprite_Update_kicks_of_no_held _ _ (by simp [isWhenDone])⟩

/-- A settled resource is returned as it is. -/
theorem checkCreated_of_settled (textures : Textures) (resource : SpriteResource)
    (hstate : resource.state ≠ ResourceState.CreationInProgress) :
    SpriteResource_CheckCreated textures resource =
      some { result := resource.state == ResourceState.Created, resource := resource,
             assertFailed := false } := by
  simp [SpriteResource_CheckCreated, hstate]

/-- The loops of `SpriteResource_CheckCreated` pass over the textures that are neither in
creation nor failed. -/
theorem scan_skips_created (textures : Textures) (rest : List Nat) (pre : List Nat)
    (hpre : ∀ u ∈ pre, textures.state u ≠ ResourceState.CreationInProgress ∧
      textures.state u ≠ ResourceState.FailedToCreate) :
    SpriteResource_CheckCreated_scan textures (pre ++ rest) =
      SpriteResource_CheckCreated_scan textures rest := by
  induction pre with
  | nil => rfl
  | cons u more ih =>
    have hu := hpre u (List.mem_cons_self _ _)
    simp only [List.cons_append, SpriteResource_CheckCreated_scan, if_neg hu.1, if_neg hu.2]
    exact ih (fun x hx => hpre x (List.mem_cons_of_mem _ hx))

/-- The loops of `SpriteResource_CheckCreated` do not run to their end when a texture is
still in creation. -/
theorem scan_not_finished (textures : Textures) (l : List Nat)
    (h : ∃ u ∈ l, textures.state u = ResourceState.CreationInProgress) :
    SpriteResource_CheckCreated_scan textures l ≠ ScanEnd.finished := by
  induction l with
  | nil => obtain ⟨u, hu, -⟩ := h; simp at hu
  | cons x rest ih =>
    by_cases h1 : textures.state x = ResourceState.CreationInProgress
    · simp [SpriteResource_CheckCreated_scan, h1]
    · by_cases h2 : textures.state x = ResourceState.FailedToCreate
      · simp [SpriteResource_CheckCreated_scan, h1, h2]
      · simp only [SpriteResource_CheckCreated_scan, if_neg h1, if_neg h2]
        apply ih
        obtain ⟨u, hu, hs⟩ := h
        rcases List.mem_cons.mp hu with rfl | hr
        · exact absurd hs h1
        · exact ⟨u, hr, hs⟩

/-- The pointer `instWhenDone` ends on the last when-done instance of the copy, as the loop
left it. -/
theorem Sprite_Update_instWhenDone_last (sprite : SpriteObj) (dt : ℚ)
    (pre : List AnimationInstance) (held : AnimationInstance) (post : List AnimationInstance)
    (hsplit : sprite.animationInstances = pre ++ held :: post)
    (hheld : isWhenDone held.mode = true)
    (hpost : ∀ it ∈ post, isWhenDone it.mode = false) :
    Sprite_Update_instWhenDone sprite dt = some (Sprite_Update_body sprite dt held).inst := by
  unfold Sprite_Update_instWhenDone Sprite_Update_steps
  have hp : (post.map (Sprite_Update_body sprite dt)).filter (fun st => st.held) = [] := by
    rw [List.filter_eq_nil_iff]
    intro st hst
    rw [List.mem_map] at hst
    obtain ⟨it, hit, rfl⟩ := hst
    rw [Sprite_Update_body_held, hpost it hit]
    simp
  have hh : (Sprite_Update_body sprite dt held).held = true := by
    rw [Sprite_Update_body_held, hheld]
  rw [hsplit, List.map_append, List.map_cons, List.filter_append, List.filter_cons, hh,
    if_pos rfl, hp, List.map_append, List.map_cons, List.map_nil]
  exact List.getLast?_concat _

/-! ## C11: the events delivered for one instance -/

/-- C11: with a callback set, for an instance in no when-done mode and an update in which it
does not wrap as a `Loop`, the callback calls made for the instance are the events of its
animation, in the order of declaration and each once, whose time `t` satisfies `oldTime ≤ t
< min (oldTime + dt) totalTime` (`eventWindow`): the window of an instance that does not
complete ends at `oldTime + dt`, that of an `Once` or `OnceAndFreeze` instance that
completes at `totalTime`.  Without a callback nothing is delivered, and an instance in a
when-done mode delivers nothing. -/
theorem events_window (sprite : SpriteObj) (dt : ℚ) (it : AnimationInstance) :
    (sprite.callback = true → isWhenDone it.mode = false →
      ¬ (it.mode = AnimationMode.Loop ∧
          (sprite.resource.mem it.animation).totalTime ≤ it.time + dt) →
      (Sprite_Update_body sprite dt it).fired =
        eventWindow (sprite.resource.mem it.animation) it.time dt) ∧
    (sprite.callback = false → (Sprite_Update_body sprite dt it).fired = []) ∧
    (isWhenDone it.mode = true → (Sprite_Update_body sprite dt it).fired = []) := by
  obtain ⟨a, m, t, w, v⟩ := it
  refine ⟨fun hcb hheld hwrap => ?_, fun hcb => ?_, fun hheld => ?_⟩
  · by_cases hc : (sprite.resource.mem a).totalTime ≤ t + dt
    · have hmin : min (t + dt) (sprite.resource.mem a).totalTime =
          (sprite.resource.mem a).totalTime := min_eq_right hc
      cases m
      · exact absurd ⟨rfl, hc⟩ hwrap
      · simp [Sprite_Update_body, isWhenDone, hc, Sprite_FireAnimationEvents, hcb,
          eventWindow, hmin]
      · simp [Sprite_Update_body, isWhenDone, hc, Sprite_FireAnimationEvents, hcb,
          eventWindow, hmin]
      · simp [isWhenDone] at hheld
      · simp [isWhenDone] at hheld
    · have hmin : min (t + dt) (sprite.resource.mem a).totalTime = t + dt :=
        min_eq_left (le_of_lt (not_le.mp hc))
      cases m
      · simp [Sprite_Update_body, isWhenDone, hc, Sprite_FireAnimationEvents, hcb,
          eventWindow, hmin]
      · simp [Sprite_Update_body, isWhenDone, hc, Sprite_FireAnimationEvents, hcb,
          eventWindow, hmin]
      · simp [Sprite_Update_body, isWhenDone, hc, Sprite_FireAnimationEvents, hcb,
          eventWindow, hmin]
      · simp [isWhenDone] at hheld
      · simp [isWhenDone] at hheld
  · unfold Sprite_Update_body
    cases m <;> simp only [isWhenDone] <;> split_ifs <;>
      simp [Sprite_FireAnimationEvents, hcb]
  · by_cases hc : (sprite.resource.mem a).totalTime ≤ t
    · cases m
      · simp [isWhenDone] at hheld
      · simp [isWhenDone] at hheld
      · simp [isWhenDone] at hheld
      · simp [Sprite_Update_body, isWhenDone, hc]
      · simp [Sprite_Update_body, isWhenDone, hc]
    · cases m
      · simp [isWhenDone] at hheld
      · simp [isWhenDone] at hheld
      · simp [isWhenDone] at hheld
      · simp [Sprite_Update_body, isWhenDone, hc, Sprite_FireAnimationEvents]
      · simp [Sprite_Update_body, isWhenDone, hc, Sprite_FireAnimationEvents]

/-- C11 on `onceSprite`: `walk` played once from 0.9 s completes in a step of 0.2 s and
delivers the event `end` (0.95 s) and nothing else. -/
theorem events_window_witness :
    (Sprite_Update_body onceSprite (1/5) ⟨3, AnimationMode.Once, 9/10, 1, 0⟩).fired =
      [("end", "")] := by
  have h := (events_window onceSprite (1/5) ⟨3, AnimationMode.Once, 9/10, 1, 0⟩).1 rfl rfl
    (by simp)
  rw [h]
  simp [eventWindow, onceSprite, demoResource, walkClip]
  norm_num

/-! ## C12: an `OnceAndFreeze` instance stays on its last frame -/

/-- C12: for an `OnceAndFreeze` instance of the list with weight 1 and weight change 0, on
an animation with at least two frames and `totalTime > 0`: after an update that takes it to
`totalTime` or beyond and after any number of later updates with time steps that are not
negative, none of these updates promoting a when-done instance, the instance is in the list
with time `totalTime`; and at that time the frame computation of `Sprite_Draw` yields
`firstFrameIndex = frameCount - 1` and `lerp = 0`. -/
theorem onceAndFreeze_holds_last_frame (sprite : SpriteObj) (a : AnimPtr) (t dt : ℚ)
    (dts : List ℚ)
    (hmem : (⟨a, AnimationMode.OnceAndFreeze, t, 1, 0⟩ : AnimationInstance) ∈
      sprite.animationInstances)
    (hcount : 2 ≤ (sprite.resource.mem a).frames.length)
    (htotal : 0 < (sprite.resource.mem a).totalTime)
    (hdone : (sprite.resource.mem a).totalTime ≤ t + dt)
    (hpos : ∀ d ∈ dts, 0 ≤ d)
    (hkick : neverKicks sprite (dt :: dts) = true) :
    (⟨a, AnimationMode.OnceAndFreeze, (sprite.resource.mem a).totalTime, 1, 0⟩ :
        AnimationInstance) ∈ (advanceAll sprite (dt :: dts)).animationInstances ∧
      (Sprite_Draw_frames (sprite.resource.mem a)
          (sprite.resource.mem a).totalTime).firstFrameIndex =
        ((sprite.resource.mem a).frames.length : ℤ) - 1 ∧
      (Sprite_Draw_frames (sprite.resource.mem a) (sprite.resource.mem a).totalTime).lerp = 0 := by
  refine ⟨?_, ?_, ?_⟩
  · simp only [neverKicks, Bool.and_eq_true, Bool.not_eq_true'] at hkick
    have hb := body_freeze_done sprite dt a t hdone
    have hstep := mem_Sprite_Update_of_pushed sprite dt _ hmem hb.2 hkick.1
    rw [hb.1] at hstep
    have hres := (Sprite_Update_resource sprite dt).1
    have := frozen_stays a dts (Sprite_Update sprite dt) (by rw [hres]; exact hstep) hpos
      hkick.2
    rw [hres] at this
    simpa [advanceAll] using this
  · have hne : (sprite.resource.mem a).frames.length ≠ 1 := by omega
    have hdiv : (sprite.resource.mem a).totalTime / (sprite.resource.mem a).totalTime = 1 :=
      div_self (ne_of_gt htotal)
    simp only [Sprite_Draw_frames, if_neg hne, hdiv, mul_one, Int.floor_natCast]
    simp only [clamp]
    have h1 : ¬ ((sprite.resource.mem a).frames.length : ℤ) < 0 := by omega
    have h2 : ((sprite.resource.mem a).frames.length : ℤ) - 1 <
        ((sprite.resource.mem a).frames.length : ℤ) := by omega
    rw [if_neg h1, if_pos h2]
  · have hne : (sprite.resource.mem a).frames.length ≠ 1 := by omega
    have hdiv : (sprite.resource.mem a).totalTime / (sprite.resource.mem a).totalTime = 1 :=
      div_self (ne_of_gt htotal)
    simp [Sprite_Draw_frames, if_neg hne, hdiv]

/-- C12 on `freezeSprite`: `walk` freezes at 1 s in a step of 0.2 s, is still there after a
further step of 0.5 s, and is drawn as frame 3 with blend factor 0. -/
theorem onceAndFreeze_holds_last_frame_witness :
    (⟨3, AnimationMode.OnceAndFreeze, 1, 1, 0⟩ : AnimationInstance) ∈
        (advanceAll freezeSprite [1/5, 1/2]).animationInstances ∧
      (Sprite_Draw_frames walkClip 1).firstFrameIndex = 3 ∧
      (Sprite_Draw_frames walkClip 1).lerp = 0 := by
  have h := onceAndFreeze_holds_last_frame freezeSprite 3 (9/10) (1/5) [1/2]
    (by simp [freezeSprite]) (by simp [freezeSprite, demoResource, walkClip])
    (by norm_num [freezeSprite, demoResource, walkClip])
    (by norm_num [freezeSprite, demoResource, walkClip])
    (by intro d hd; simp at hd; rw [hd]; norm_num)
    freezeSprite_never_kicks
  have e : freezeSprite.resource.mem 3 = walkClip := by simp [freezeSprite, demoResource]
  rw [e] at h
  have e2 : walkClip.totalTime = 1 := rfl
  have e3 : ((walkClip.frames.length : ℤ) - 1) = 3 := by simp [walkClip]
  rw [e2, e3] at h
  exact h

/-! ## C13: an unknown animation name -/

/-- C13: for a name that is not empty and is no key of `animations`, `Sprite_PlayAnimation`
returns the sprite unchanged (instance list, resource and callback), whatever the mode and
the transition time; and the empty name always resolves, to the default animation. -/
theorem unknown_name_ignored (sprite : SpriteObj) (name : String)
    (mode : AnimationMode) (transitionTime : ℚ) :
    (name ≠ "" → (∀ p, (name, p) ∉ sprite.resource.animations) →
      Sprite_PlayAnimation sprite name mode transitionTime = sprite) ∧
    findAnimation sprite.resource "" = some sprite.resource.defaultAnimation := by
  refine ⟨fun hne hkey => ?_, by simp [findAnimation]⟩
  have hlook : ∀ l : List (String × AnimPtr), (∀ p, (name, p) ∉ l) → l.lookup name = none := by
    intro l
    induction l with
    | nil => intro _; rfl
    | cons e rest ih =>
      intro h
      obtain ⟨k, p⟩ := e
      have hk : name ≠ k := by
        intro heq
        exact h p (by rw [heq]; exact List.mem_cons_self _ _)
      have hbeq : (name == k) = false := by simpa using hk
      simp only [List.lookup, hbeq]
      exact ih (fun q hq => h q (List.mem_cons_of_mem _ hq))
  simp [Sprite_PlayAnimation, findAnimation, hne, hlook _ hkey]

/-- C13 on `idleSprite`: `demoResource` has no animation `swim`, and playing it changes
nothing. -/
theorem unknown_name_ignored_witness :
    Sprite_PlayAnimation idleSprite "swim" AnimationMode.Once 1 = idleSprite :=
  (unknown_name_ignored idleSprite "swim" AnimationMode.Once 1).1 (by decide)
    (by
      intro p
      simp [idleSprite, demoResource])

/-! ## C14: weights stay in the unit interval -/

/-- C15, evaluated on `loadingResource` (in creation) with `failedFirstTextures`: texture 1
is a frame texture and is still in creation, yet texture 0, visited before it, has failed,
and `SpriteResource_CheckCreated` returns false and sets the state to `FailedToCreate`. -/
theorem checkCreated_failed_before_loading :
    loadingResource.state = ResourceState.CreationInProgress ∧
      (1 ∈ frameTextures loadingResource ∧
        failedFirstTextures.state 1 = ResourceState.CreationInProgress) ∧
      ∃ res, SpriteResource_CheckCreated failedFirstTextures loadingResource = some res ∧
        res.result = false ∧ res.resource.state = ResourceState.FailedToCreate := by
  refine ⟨rfl, ⟨by simp [frameTextures, loadingResource, demoResource, idleClip], rfl⟩, ?_⟩
  refine ⟨⟨false, { loadingResource with state := ResourceState.FailedToCreate }, false⟩,
    ?_, rfl, rfl⟩
  simp [SpriteResource_CheckCreated, loadingResource, frameTextures, demoResource, idleClip,
    jumpClip, walkClip, SpriteResource_CheckCreated_scan, failedFirstTextures]

/-- C15 as amended: for a resource in creation, let `t` be the first frame texture, in the
order of the visit, that is in creation or has failed (the textures `pre` visited before it
are neither).  If `t` is in creation, `SpriteResource_CheckCreated` returns false and leaves
the resource unchanged, still in creation, whatever the states of the textures visited
after `t`; if `t` has failed, it returns false and sets the state to `FailedToCreate`,
changing nothing else.  And whenever some frame texture is in creation it returns false. -/
theorem checkCreated_first_decisive (textures : Textures) (resource : SpriteResource)
    (hstate : resource.state = ResourceState.CreationInProgress) :
    (∀ (pre : List Nat) (t : Nat) (post : List Nat),
      frameTextures resource = pre ++ t :: post →
      (∀ u ∈ pre, textures.state u ≠ ResourceState.CreationInProgress ∧
        textures.state u ≠ ResourceState.FailedToCreate) →
      (textures.state t = ResourceState.CreationInProgress →
        SpriteResource_CheckCreated textures resource =
          some { result := false, resource := resource, assertFailed := false }) ∧
      (textures.state t = ResourceState.FailedToCreate →
        SpriteResource_CheckCreated textures resource =
          some { result := false
                 resource := { resource with state := ResourceState.FailedToCreate }
                 assertFailed := false })) ∧
    ((∃ u ∈ frameTextures resource, textures.state u = ResourceState.CreationInProgress) →
      ∃ res, SpriteResource_CheckCreated textures resource = some res ∧
        res.result = false) := by
  constructor
  · intro pre t post hsplit hpre
    have hscan := scan_skips_created textures (t :: post) pre hpre
    rw [← hsplit] at hscan
    constructor
    · intro hload
      simp [SpriteResource_CheckCreated, hstate, hscan, SpriteResource_CheckCreated_scan,
        hload]
    · intro hfail
      have hne : textures.state t ≠ ResourceState.CreationInProgress := by
        rw [hfail]; decide
      simp [SpriteResource_CheckCreated, hstate, hscan, SpriteResource_CheckCreated_scan,
        hfail]
  · intro hex
    have hne := scan_not_finished textures (frameTextures resource) hex
    cases hscan : SpriteResource_CheckCreated_scan textures (frameTextures resource) with
    | inProgress =>
      exact ⟨⟨false, resource, false⟩,
        by simp [SpriteResource_CheckCreated, hstate, hscan], rfl⟩
    | failed =>
      exact ⟨⟨false, { resource with state := ResourceState.FailedToCreate }, false⟩,
        by simp [SpriteResource_CheckCreated, hstate, hscan], rfl⟩
    | finished => exact absurd hscan hne

/-- C15 as amended, on `loadingResource`: with `loadingFirstTextures` (texture 0 created,
texture 1 in creation, texture 2 failed) the call returns false and leaves the resource in
creation; with `failedFirstTextures` (texture 0 failed, texture 1 in creation) it returns
false and sets the state to `FailedToCreate`. -/
theorem checkCreated_first_decisive_witness :
    SpriteResource_CheckCreated loadingFirstTextures loadingResource =
        some { result := false, resource := loadingResource, assertFailed := false } ∧
      SpriteResource_CheckCreated failedFirstTextures loadingResource =
        some { result := false
               resource := { loadingResource with state := ResourceState.FailedToCreate }
               assertFailed := false } :=
  ⟨((checkCreated_first_decisive loadingFirstTextures loadingResource rfl).1 [0] 1
      [2, 3, 4, 5, 6, 7, 8, 9, 10, 11, 8, 9, 10, 11]
      (by simp [frameTextures, loadingResource, demoResource, idleClip, jumpClip, walkClip])
      (by simp [loadingFirstTextures])).1 rfl,
    ((checkCreated_first_decisive failedFirstTextures loadingResource rfl).1 [] 0
      [1, 2, 3, 4, 5, 6, 7, 8, 9, 10, 11, 8, 9, 10, 11]
      (by simp [frameTextures, loadingResource, demoResource, idleClip, jumpClip, walkClip])
      (by simp)).2 rfl⟩

/-! ## C16: a settled resource -/

/-- C16: once the state of a resource is `Created` or `FailedToCreate`, a call of
`SpriteResource_CheckCreated` returns `state == Created` and leaves the resource as it is
(state, width, height and all), whatever the states of the textures; hence the same holds
for any number of successive calls, each with its own states of the textures. -/
theorem checkCreated_settled (resource : SpriteResource)
    (hstate : resource.state = ResourceState.Created ∨
      resource.state = ResourceState.FailedToCreate)
    (snapshots : List Textures) :
    (∀ textures : Textures, SpriteResource_CheckCreated textures resource =
      some { result := resource.state == ResourceState.Created, resource := resource,
             assertFailed := false }) ∧
    checkRepeatedly resource snapshots =
      some (resource, snapshots.map (fun _ => resource.state == ResourceState.Created)) := by
  have hne : resource.state ≠ ResourceState.CreationInProgress := by
    rcases hstate with h | h <;> rw [h] <;> decide
  refine ⟨fun textures => checkCreated_of_settled textures resource hne, ?_⟩
  induction snapshots with
  | nil => rfl
  | cons textures rest ih =>
    simp only [checkRepeatedly, checkCreated_of_settled textures resource hne, ih,
      List.map_cons]

/-- C16 on a failed `demoResource`: two calls, under different states of the textures,
both return false and leave it failed. -/
theorem checkCreated_settled_witness :
    checkRepeatedly { demoResource with state := ResourceState.FailedToCreate }
        [failedFirstTextures, loadingFirstTextures] =
      some ({ demoResource with state := ResourceState.FailedToCreate }, [false, false]) :=
  (checkCreated_settled { demoResource with state := ResourceState.FailedToCreate }
    (Or.inr rfl) [failedFirstTextures, loadingFirstTextures]).2

/-! ## C17: when-done instances and the size test of the kick-off block -/

/-- C17, evaluated on `queuedSprite` (`idle` looping, `jump` queued) with `dt = 0.25`: no
animation completes, a when-done instance exists and exactly one other instance survives,
yet the list after `Sprite_Update` is `idle` followed by the queued `jump`, not the promoted
`jump` alone. -/
theorem queued_not_promoted :
    Sprite_Update_doneAnim queuedSprite (1/4) = false ∧
      (Sprite_Update queuedSprite (1/4)).animationInstances =
        [⟨0, AnimationMode.Loop, 1/4, 1, 0⟩, ⟨1, AnimationMode.OnceWhenDone, 0, 1, 0⟩] ∧
      (Sprite_Update queuedSprite (1/4)).animationInstances ≠
        [kickedInstance ⟨1, AnimationMode.OnceWhenDone, 0, 1, 0⟩] := by
  have hlist : (Sprite_Update queuedSprite (1/4)).animationInstances =
      [⟨0, AnimationMode.Loop, 1/4, 1, 0⟩, ⟨1, AnimationMode.OnceWhenDone, 0, 1, 0⟩] := by
    have h := update_pair_running demoResource false 0 1 0 (1/4)
      (by norm_num [demoResource, idleClip])
    have e : queuedSprite = ⟨demoResource, [⟨0, AnimationMode.Loop, 0, 1, 0⟩,
        ⟨1, AnimationMode.OnceWhenDone, 0, 1, 0⟩], false⟩ := rfl
    rw [e, h]
    norm_num
  refine ⟨?_, hlist, ?_⟩
  · simp [Sprite_Update_doneAnim, Sprite_Update_steps, Sprite_Update_body, isWhenDone,
      queuedSprite, demoResource, idleClip, jumpClip]
    norm_num
  · rw [hlist]
    simp

/-- C17 as amended: in an update in which no animation completes, the when-done instances
that the loop pushes are survivors like the others.  When a when-done instance and an
instance in no when-done mode are both pushed, the list after `Sprite_Update` is the list
of the pushed instances: both are in it, the when-done one still in its when-done mode,
nothing is promoted.  When the loop pushes exactly one instance in all, the last when-done
instance of the list is promoted in that update: the list after `Sprite_Update` is exactly
that instance, with `OnceWhenDone` turned into `Once` or `LoopWhenDone` into `Loop`, weight
1, and its animation and time as they were. -/
theorem held_counted_among_survivors (sprite : SpriteObj) (dt : ℚ)
    (hdone : Sprite_Update_doneAnim sprite dt = false) :
    (∀ held ∈ sprite.animationInstances, ∀ other ∈ sprite.animationInstances,
      isWhenDone held.mode = true → isWhenDone other.mode = false →
      (Sprite_Update_body sprite dt held).pushed = true →
      (Sprite_Update_body sprite dt other).pushed = true →
      (Sprite_Update sprite dt).animationInstances = Sprite_Update_pushed sprite dt ∧
        (Sprite_Update_body sprite dt held).inst ∈
          (Sprite_Update sprite dt).animationInstances ∧
        (Sprite_Update_body sprite dt held).inst.mode = held.mode ∧
        (Sprite_Update_body sprite dt other).inst ∈
          (Sprite_Update sprite dt).animationInstances) ∧
    (∀ (pre : List AnimationInstance) (held : AnimationInstance)
      (post : List AnimationInstance),
      sprite.animationInstances = pre ++ held :: post →
      isWhenDone held.mode = true → (∀ it ∈ post, isWhenDone it.mode = false) →
      (Sprite_Update_pushed sprite dt).length = 1 →
      (Sprite_Update sprite dt).animationInstances =
        [⟨held.animation,
          if held.mode = AnimationMode.OnceWhenDone then AnimationMode.Once
          else AnimationMode.Loop,
          held.time, 1, (Sprite_Update_body sprite dt held).inst.weightChangeSpeed⟩]) := by
  constructor
  · intro held hheld other hother hm1 hm2 hp1 hp2
    have hmem1 := mem_pushed sprite dt held hheld hp1
    have hmem2 := mem_pushed sprite dt other hother hp2
    have hlen : (Sprite_Update_pushed sprite dt).length ≠ 1 := by
      intro hlen
      rw [List.length_eq_one] at hlen
      obtain ⟨x, hx⟩ := hlen
      rw [hx, List.mem_singleton] at hmem1 hmem2
      have hmode : (Sprite_Update_body sprite dt held).inst.mode =
          (Sprite_Update_body sprite dt other).inst.mode := by rw [hmem1, hmem2]
      rw [Sprite_Update_body_mode, Sprite_Update_body_mode] at hmode
      rw [hmode, hm2] at hm1
      exact Bool.false_ne_true hm1
    have hkicked : Sprite_Update_kicked sprite dt = Sprite_Update_pushed sprite dt := by
      unfold Sprite_Update_kicked
      cases Sprite_Update_instWhenDone sprite dt with
      | none => rfl
      | some w => simp [hdone, hlen]
    have hlist : (Sprite_Update sprite dt).animationInstances =
        Sprite_Update_pushed sprite dt := by
      rw [Sprite_Update_instances, hkicked, if_neg (List.ne_nil_of_mem hmem1)]
    rw [hlist]
    exact ⟨rfl, hmem1, Sprite_Update_body_mode sprite dt held, hmem2⟩
  · intro pre held post hsplit hheld hpost hlen
    have hw := Sprite_Update_instWhenDone_last sprite dt pre held post hsplit hheld hpost
    have hkicked : Sprite_Update_kicked sprite dt =
        [kickedInstance (Sprite_Update_body sprite dt held).inst] := by
      unfold Sprite_Update_kicked
      rw [hw]
      simp [hlen, kickedInstance]
    rw [Sprite_Update_instances, hkicked]
    simp [kickedInstance, Sprite_Update_body_animation, Sprite_Update_body_mode,
      Sprite_Update_body_held_time sprite dt held hheld]

/-- The update of `fadingQueuedSprite` by half a second pushes the queued `jump` only: `idle`
has reached a weight below 0 without completing. -/
theorem fadingQueuedSprite_steps :
    Sprite_Update_steps fadingQueuedSprite (1/2) =
      [⟨⟨0, AnimationMode.Loop, 1/2, -1/4, -1⟩, false, false, false, [], false⟩,
       ⟨⟨1, AnimationMode.OnceWhenDone, 0, 1, 0⟩, true, false, true, [], false⟩] := by
  simp [Sprite_Update_steps, Sprite_Update_body, Sprite_Update_weight, isWhenDone,
    fadingQueuedSprite, demoResource, idleClip, jumpClip, Sprite_FireAnimationEvents]
  norm_num
  simp

/-- C17 as amended, on `queuedSprite` with `dt = 0.25` (`idle` and the queued `jump` are
both pushed: both stay, `jump` still queued) and on `fadingQueuedSprite` with `dt = 0.5`
(only the queued `jump` is pushed: the list becomes `jump` alone in mode `Once` with
weight 1). -/
theorem held_counted_among_survivors_witness :
    (Sprite_Update queuedSprite (1/4)).animationInstances =
        Sprite_Update_pushed queuedSprite (1/4) ∧
      (Sprite_Update fadingQueuedSprite (1/2)).animationInstances =
        [⟨1, AnimationMode.Once, 0, 1, 0⟩] := by
  have hdone1 : Sprite_Update_doneAnim queuedSprite (1/4) = false := by
    simp [Sprite_Update_doneAnim, Sprite_Update_steps, Sprite_Update_body, isWhenDone,
      queuedSprite, demoResource, idleClip, jumpClip]
    norm_num
  have hdone2 : Sprite_Update_doneAnim fadingQueuedSprite (1/2) = false := by
    unfold Sprite_Update_doneAnim
    rw [fadingQueuedSprite_steps]
    rfl
  have hlen : (Sprite_Update_pushed fadingQueuedSprite (1/2)).length = 1 := by
    unfold Sprite_Update_pushed
    rw [fadingQueuedSprite_steps]
    rfl
  have h1 := ((held_counted_among_survivors queuedSprite (1/4) hdone1).1
    ⟨1, AnimationMode.OnceWhenDone, 0, 1, 0⟩ (by simp [queuedSprite])
    ⟨0, AnimationMode.Loop, 0, 1, 0⟩ (by simp [queuedSprite]) rfl rfl
    (body_held_steady queuedSprite (1/4) 1 0).2.1
    (body_loop_running queuedSprite (1/4) 0 0
      (by norm_num [queuedSprite, demoResource, idleClip])).2.1).1
  have h2 := (held_counted_among_survivors fadingQueuedSprite (1/2) hdone2).2
    [⟨0, AnimationMode.Loop, 0, 1/4, -1⟩] ⟨1, AnimationMode.OnceWhenDone, 0, 1, 0⟩ [] rfl rfl
    (by simp) hlen
  have hb := (body_held_steady fadingQueuedSprite (1/2) 1 0).1
  rw [hb] at h2
  exact ⟨h1, by rw [h2]; simp⟩

/-! ## C18: the tie-break of the selection of `Sprite_Draw` -/

/-- C19: when every animation of the resource has `totalTime > 0`, after any sequence of
calls of `Sprite_PlayAnimation`, `Sprite_Update` (any time step) and
`Sprite_SetEventCallback` on a newly created sprite, every instance in a when-done mode has
time 0, which is below the total time of its animation, so that the completion branch is
not entered for it; and whatever the time step, the next `Sprite_Update` does not hit the
`Assert` "Unsupported sprite animation mode". -/
theorem held_instances_at_zero (resource : SpriteResource)
    (htotal : ∀ p, 0 < (resource.mem p).totalTime) (calls : List Call) :
    (∀ it ∈ (runCalls (Sprite_Create resource) calls).animationInstances,
      isWhenDone it.mode = true →
        it.time = 0 ∧ it.time < (resource.mem it.animation).totalTime) ∧
    (∀ dt : ℚ, Sprite_Update_assertFailed (runCalls (Sprite_Create resource) calls) dt =
      false) := by
  obtain ⟨hres, hzero⟩ := runCalls_held_at_zero resource calls
  constructor
  · intro it hit hheld
    have h0 := hzero it hit hheld
    exact ⟨h0, by rw [h0]; exact htotal _⟩
  · intro dt
    unfold Sprite_Update_assertFailed Sprite_Update_steps
    rw [List.any_eq_false]
    intro st hst
    rw [List.mem_map] at hst
    obtain ⟨it, hit, rfl⟩ := hst
    intro hassert
    obtain ⟨hheld, hle⟩ := Sprite_Update_body_assert _ dt it hassert
    rw [hres, hzero it hit hheld] at hle
    exact absurd (htotal it.animation) (not_lt.mpr hle)

/-- C19 on `demoResource` and the calls of `stuckCalls`, which leave two when-done
instances. -/
theorem held_instances_at_zero_witness :
    (∀ it ∈ (runCalls (Sprite_Create demoResource) stuckCalls).animationInstances,
      isWhenDone it.mode = true →
        it.time = 0 ∧ it.time < (demoResource.mem it.animation).totalTime) ∧
    (∀ dt : ℚ, Sprite_Update_assertFailed (runCalls (Sprite_Create demoResource) stuckCalls)
      dt = false) :=
  held_instances_at_zero demoResource demoResource_totalTime_pos stuckCalls

/-! ## C20: times stay within the total time -/

end Tiny2D
